import Mathlib

/-!
Verification development for the `lib-fsm` finite-state-machine engine.

The engine (TypeScript) is shallowly embedded here:
* JavaScript `Map` objects become insertion-ordered association lists (`JsMap`)
  with `set` updating in place and `get` returning the first hit, matching
  JS `Map` semantics.
* Mutable `FsmState` objects live in an explicit heap (`JsMap Nat FsmState`)
  keyed by an allocation identity (`oid`), so aliasing between the state
  registry, the initial-state map, the token map and transition tables is
  modelled faithfully.  Transition tables are keyed by the *object identity*
  of the `FsmEvent` used as key, matching JS `Map` reference-keyed lookup.
* Throwing methods become `Except (FsmErr × Fsm) (α × Fsm)`: a thrown error
  carries the engine state at throw time, since in JS mutations performed
  before a throw persist.
* `listener.emit(...)` calls on the token channel are recorded in a trace
  (`tokenTrace`), and output-function invocations are recorded as trace
  actions, so "which callbacks were invoked" is observable.
-/

set_option maxHeartbeats 1000000

namespace LibFsm

/-- Insertion-ordered association list modelling a JavaScript `Map`. -/
abbrev JsMap (α β : Type) := List (α × β)

/-- JS `Map.get`: first entry with the key, else `none` (undefined). -/
def jmGet [DecidableEq α] (m : JsMap α β) (k : α) : Option β :=
  match m with
  | [] => none
  | (k', v) :: rest => if k = k' then some v else jmGet rest k

/-- JS `Map.set`: update the value in place if the key exists, else append. -/
def jmSet [DecidableEq α] (m : JsMap α β) (k : α) (v : β) : JsMap α β :=
  match m with
  | [] => [(k, v)]
  | (k', v') :: rest => if k = k' then (k', v) :: rest else (k', v') :: jmSet rest k v

/-- JS `Map.has`. -/
def jmHas [DecidableEq α] (m : JsMap α β) (k : α) : Bool :=
  (jmGet m k).isSome

/-- JS `Map.delete`: remove the entry with the key. -/
def jmDel [DecidableEq α] (m : JsMap α β) (k : α) : JsMap α β :=
  match m with
  | [] => []
  | (k', v') :: rest => if k = k' then rest else (k', v') :: jmDel rest k

/-- JS `Map.size`. -/
def jmSize (m : JsMap α β) : Nat := m.length

/-- JS `Map.values()` in insertion order. -/
def jmValues (m : JsMap α β) : List β := m.map Prod.snd

theorem jmGet_jmSet_self [DecidableEq α] (m : JsMap α β) (k : α) (v : β) :
    jmGet (jmSet m k v) k = some v := by
  induction m with
  | nil => simp [jmGet, jmSet]
  | cons hd tl ih =>
    obtain ⟨k', v'⟩ := hd
    by_cases h : k = k' <;> simp [jmGet, jmSet, h, ih]

theorem jmGet_jmSet_ne [DecidableEq α] (m : JsMap α β) (k k' : α) (v : β)
    (h : k' ≠ k) : jmGet (jmSet m k v) k' = jmGet m k' := by
  induction m with
  | nil => simp [jmGet, jmSet, h]
  | cons hd tl ih =>
    obtain ⟨k0, v0⟩ := hd
    by_cases hk : k = k0
    · subst hk
      simp [jmGet, jmSet, h]
    · by_cases hk' : k' = k0 <;> simp [jmGet, jmSet, hk, hk', ih]

theorem jmGet_jmSet [DecidableEq α] (m : JsMap α β) (k k' : α) (v : β) :
    jmGet (jmSet m k v) k' = if k' = k then some v else jmGet m k' := by
  by_cases h : k' = k
  · subst h; simp [jmGet_jmSet_self]
  · simp [h, jmGet_jmSet_ne m k k' v h]

theorem jmHas_eq_false_iff [DecidableEq α] (m : JsMap α β) (k : α) :
    jmHas m k = false ↔ jmGet m k = none := by
  cases h : jmGet m k <;> simp [jmHas, h]

theorem jmHas_eq_true_iff [DecidableEq α] (m : JsMap α β) (k : α) :
    jmHas m k = true ↔ ∃ v, jmGet m k = some v := by
  simp [jmHas, Option.isSome_iff_exists]

theorem jmSize_jmSet_of_not_has [DecidableEq α] (m : JsMap α β) (k : α) (v : β)
    (h : jmHas m k = false) : jmSize (jmSet m k v) = jmSize m + 1 := by
  induction m with
  | nil => simp [jmSize, jmSet]
  | cons hd tl ih =>
    obtain ⟨k0, v0⟩ := hd
    rw [jmHas_eq_false_iff] at h ih
    by_cases hk : k = k0
    · subst hk; simp [jmGet] at h
    · simp [jmGet, hk] at h
      simp [jmSet, hk, jmSize] at ih ⊢
      exact ih h

/-- Value domain for `isInitialState()`, which in JS evaluates
`name && name.length > 0` and hence returns `null`, an empty string, or a
boolean, depending on the stored region name. -/
inductive JsValue
  | vNull
  | vString (s : String)
  | vBool (b : Bool)
deriving DecidableEq

/-- `FsmEvent`: immutable identity record.  `oid` is the JS object identity
(allocation id) used when the event is used as a `Map` key; `eventId` and
`eventName` are the record's fields. -/
structure FsmEvent where
  oid : Nat
  eventId : Int
  eventName : String
deriving DecidableEq

/-- An attached output function: `fnId` is the callback's identity, `arity`
its declared parameter count (JS `Function.length`). -/
structure OutputFn where
  fnId : Nat
  arity : Nat
deriving DecidableEq

/-- Mutable data of an `FsmState` object (one heap cell).  The transition
table maps an event's object identity to the target state's object identity;
the output table maps an event's object identity to the attached output
function (or `null`). -/
structure FsmState where
  fsmName : String
  stateId : Int
  stateName : String
  isFinalFlag : Bool
  isDeterministicFlag : Bool
  initialStateRegionName : Option String
  transitionTable : Option (JsMap Nat Nat)
  outputTable : Option (JsMap Nat (Option OutputFn))
deriving DecidableEq

/-- Stand-in for dereferencing an object id absent from the heap; the API
never creates dangling references, so this value is inert (it behaves like a
final state with no tables). -/
def defaultFsmState : FsmState :=
  { fsmName := "", stateId := 0, stateName := "", isFinalFlag := true,
    isDeterministicFlag := true, initialStateRegionName := none,
    transitionTable := none, outputTable := none }

/-- Dereference a state object id in the heap. -/
def derefHeap (heap : JsMap Nat FsmState) (oid : Nat) : FsmState :=
  (jmGet heap oid).getD defaultFsmState

/-- Observable actions on the token listener channel, plus output-function
invocations (recorded so that "the output ran" is an observable fact). -/
inductive TokAct
  | tokenCreated (tokenId : String) (stateOid : Nat)
  | errTokenIdNotFound (tokenId : String)
  | errEventNotFound (tokenId : String) (stateOid : Nat)
  | errNdStateTableNotFound (tokenId : String) (stateOid : Nat) (tentativeOid : Nat)
  | transitNonDeterministic (tokenId : String) (stateOid : Nat) (eventOid : Nat) (tentativeOid : Nat)
  | invalidStateChange (tokenId : String) (stateOid : Nat) (eventOid : Nat)
  | transitSelf (tokenId : String) (stateOid : Nat) (eventOid : Nat) (nextOid : Nat)
  | stateFinal (tokenId : String) (stateOid : Nat) (eventOid : Nat) (nextOid : Nat)
  | transitState (tokenId : String) (stateOid : Nat) (eventOid : Nat) (nextOid : Nat)
  | outputInvoked (fnId : Nat) (argCount : Nat)
deriving DecidableEq

/-- Errors thrown by the engine and by `FsmState` methods, one constructor
per `throw` site. -/
inductive FsmErr
  | duplicateState
  | duplicateEvent
  | incompleteTransitionInput
  | incompleteRemoveInput
  | selfTransitionDisabled
  | finalStateAddTransition
  | invalidEventAdd
  | invalidNextStateAdd
  | multipleTransition
  | finalStateRemoveTransition
  | invalidEventRemove
  | nonExistentTransition
  | invalidTokenId
  | tokenExists (tokenId : String)
  | noInitialState (region : String)
  | tokenNotExists (tokenId : String)
  | invalidOnEvent
  | invalidStateTable (tableType : String)
  | invalidStateChange (tableType : String)
deriving DecidableEq

namespace FsmState

/-- `equals(otherState)` for the object-argument shape: ids and names match. -/
def equals (d o : FsmState) : Bool :=
  d.stateId == o.stateId && d.stateName == o.stateName

/-- `markInitial(fsmRegionName)`. -/
def markInitial (d : FsmState) (fsmRegionName : String) : FsmState :=
  { d with initialStateRegionName := some fsmRegionName }

/-- `unmarkInitial()`. -/
def unmarkInitial (d : FsmState) : FsmState :=
  { d with initialStateRegionName := none }

/-- `markDeterministic()`. -/
def markDeterministic (d : FsmState) : FsmState :=
  { d with isDeterministicFlag := true }

/-- `markNonDeterministic()`. -/
def markNonDeterministic (d : FsmState) : FsmState :=
  { d with isDeterministicFlag := false }

/-- `isInitialState()`: JS evaluates `name && name.length > 0`, returning the
falsy operand itself (`null` or `""`) or the boolean comparison result. -/
def isInitialState (d : FsmState) : JsValue :=
  match d.initialStateRegionName with
  | none => JsValue.vNull
  | some r => if r.length = 0 then JsValue.vString r else JsValue.vBool (decide (0 < r.length))

/-- `isDeterministic()`. -/
def isDeterministic (d : FsmState) : Bool :=
  d.isDeterministicFlag

/-- `isFinalState()`: constructed final, or (defensively) no / empty table. -/
def isFinalState (d : FsmState) : Bool :=
  d.isFinalFlag ||
    (match d.transitionTable with
     | none => true
     | some t => decide (jmSize t = 0))

/-- `nextState(onEvent)`. -/
def nextState (d : FsmState) (onEvent : Option FsmEvent) : Option Nat :=
  if d.isFinalFlag then none
  else
    match d.transitionTable, onEvent with
    | none, _ => none
    | _, none => none
    | some t, some e => jmGet t e.oid

/-- `nextOutput(onEvent)`; a stored `null` and an absent entry both give
`none`, mirroring `... .get(onEvent) || null`. -/
def nextOutput (d : FsmState) (onEvent : Option FsmEvent) : Option OutputFn :=
  if d.isFinalFlag then none
  else
    match d.outputTable, onEvent with
    | none, _ => none
    | _, none => none
    | some t, some e =>
      match jmGet t e.oid with
      | none => none
      | some v => v

/-- `executeOutput(input)`: dispatch on the declared arity of the attached
function; arity 0 is a plain effect, 1 receives the state, 2 receives state
and event, anything else is not invoked.  The function never throws; the
returned list records the invocations performed. -/
def executeOutput (d : FsmState) (input : Option FsmEvent) : List TokAct :=
  match d.nextOutput input with
  | none => []
  | some f =>
    if f.arity = 0 then [TokAct.outputInvoked f.fnId 0]
    else if f.arity = 1 then [TokAct.outputInvoked f.fnId 1]
    else if f.arity = 2 ∧ input.isSome = true then [TokAct.outputInvoked f.fnId 2]
    else []

/-- `addTransition(onEvent, nextState, output?)`.  The heap is needed to
compare the stored target against the new one with `equals`. -/
def addTransition (heap : JsMap Nat FsmState) (d : FsmState)
    (onEvent : Option FsmEvent) (nextStateOid : Option Nat)
    (output : Option OutputFn) : Except FsmErr FsmState :=
  match d.transitionTable with
  | none => Except.error FsmErr.finalStateAddTransition
  | some t =>
    if d.isFinalFlag then Except.error FsmErr.finalStateAddTransition
    else
      match onEvent with
      | none => Except.error FsmErr.invalidEventAdd
      | some e =>
        match nextStateOid with
        | none => Except.error FsmErr.invalidNextStateAdd
        | some n =>
          match jmGet t e.oid with
          | some cur =>
            if equals (derefHeap heap cur) (derefHeap heap n) then Except.ok d
            else Except.error FsmErr.multipleTransition
          | none =>
            Except.ok
              { d with
                transitionTable := some (jmSet t e.oid n),
                outputTable := d.outputTable.map (fun ot => jmSet ot e.oid output) }

/-- `removeTransition(onEvent)`.  The output-table entry is not removed,
matching the source. -/
def removeTransition (d : FsmState) (onEvent : Option FsmEvent) :
    Except FsmErr FsmState :=
  match d.transitionTable with
  | none => Except.error FsmErr.finalStateRemoveTransition
  | some t =>
    if d.isFinalFlag then Except.error FsmErr.finalStateRemoveTransition
    else
      match onEvent with
      | none => Except.error FsmErr.invalidEventRemove
      | some e =>
        if jmHas t e.oid then
          Except.ok { d with transitionTable := some (jmDel t e.oid) }
        else Except.error FsmErr.nonExistentTransition

end FsmState

/-- The orchestrator.  `states` maps stateId to a heap object id, `events`
maps eventId to the (immutable) event record, `initialStates` maps a region
name to a state object id, `tokenInstances` maps a token id to the bound
state's object id.  `heap` holds every allocated `FsmState` object and
`nextOid` is the allocation counter.  `tokenTrace` records the emissions on
the token listener channel. -/
structure Fsm where
  name : String
  states : JsMap Int Nat
  events : JsMap Int FsmEvent
  initialStates : JsMap String Nat
  tokenInstances : JsMap String Nat
  allowSelfTransition : Bool
  heap : JsMap Nat FsmState
  nextOid : Nat
  tokenTrace : List TokAct
deriving DecidableEq

/-- A state argument as accepted by the engine's polymorphic signatures:
a live `FsmState` object (its object id), a numeric id, or a name. -/
inductive StateArg
  | obj (oid : Nat)
  | byId (i : Int)
  | byName (s : String)
deriving DecidableEq

/-- An event argument: a live `FsmEvent` object, a numeric id, or a name. -/
inductive EventArg
  | obj (e : FsmEvent)
  | byId (i : Int)
  | byName (s : String)
deriving DecidableEq

/-- External non-deterministic resolver: `(tokenId, currentState, onEvent)`
to a state object or `null`.  Modelled as a pure function. -/
def NdResolver : Type := String → Nat → FsmEvent → Option Nat

/-- JS whitespace as removed by `String.prototype.trim` (the characters that
can occur in our setting). -/
def isJsWhitespace (c : Char) : Bool :=
  c == ' ' || c == '\t' || c == '\n' || c == '\r'

/-- `!tokenId?.trim()`: the token id trims to the empty string, i.e. it is
all whitespace. -/
def trimIsEmpty (s : String) : Bool :=
  s.data.all isJsWhitespace

namespace Fsm

/-- Append one emission on the token listener channel. -/
def emitTok (fsm : Fsm) (a : TokAct) : Fsm :=
  { fsm with tokenTrace := fsm.tokenTrace ++ [a] }

/-- `createNewFiniteStateMachine(fsmName)`. -/
def createNewFiniteStateMachine (fsmName : String) : Fsm :=
  { name := fsmName, states := [], events := [], initialStates := [],
    tokenInstances := [], allowSelfTransition := true, heap := [],
    nextOid := 0, tokenTrace := [] }

/-- `clearAll()`: clears the state, event and initial-state registries.
The token-instance map is not cleared by the source. -/
def clearAll (fsm : Fsm) : Fsm :=
  { fsm with states := [], events := [], initialStates := [] }

/-- `isEmpty()`. -/
def isEmpty (fsm : Fsm) : Bool :=
  jmSize fsm.states = 0 && jmSize fsm.events = 0 && jmSize fsm.initialStates = 0

/-- A missing or empty (falsy) region argument defaults to the engine name,
mirroring `if (!fsmRegionName) fsmRegionName = this._name`. -/
def regionOrDefault (fsm : Fsm) (fsmRegionName : Option String) : String :=
  match fsmRegionName with
  | none => fsm.name
  | some r => if r = "" then fsm.name else r

/-- `getState(state, stateName)` with both an id and a name: a hit only when
both match. -/
def getStateByIdAndName (fsm : Fsm) (stateId : Int) (stateName : String) : Option Nat :=
  match jmGet fsm.states stateId with
  | none => none
  | some oid => if (derefHeap fsm.heap oid).stateName = stateName then some oid else none

/-- `getState(id)`. -/
def getStateById (fsm : Fsm) (stateId : Int) : Option Nat :=
  jmGet fsm.states stateId

/-- `getState(name)`: first registered state with that name, insertion order. -/
def getStateByName (fsm : Fsm) (stateName : String) : Option Nat :=
  (fsm.states.find? (fun p => (derefHeap fsm.heap p.2).stateName = stateName)).map Prod.snd

/-- Argument resolution `(x instanceof FsmState) ? x : this.getState(x)`. -/
def resolveStateArg (fsm : Fsm) (a : StateArg) : Option Nat :=
  match a with
  | StateArg.obj oid => some oid
  | StateArg.byId i => getStateById fsm i
  | StateArg.byName s => getStateByName fsm s

/-- `getEvent(id)`. -/
def getEventById (fsm : Fsm) (eventId : Int) : Option FsmEvent :=
  jmGet fsm.events eventId

/-- `getEvent(name)`: first registered event with that name. -/
def getEventByName (fsm : Fsm) (eventName : String) : Option FsmEvent :=
  (fsm.events.find? (fun p => p.2.eventName = eventName)).map Prod.snd

/-- Argument resolution `(x instanceof FsmEvent) ? x : this.getEvent(x)`. -/
def resolveEventArg (fsm : Fsm) (a : EventArg) : Option FsmEvent :=
  match a with
  | EventArg.obj e => some e
  | EventArg.byId i => getEventById fsm i
  | EventArg.byName s => getEventByName fsm s

/-- `getInitialState(fsmRegionName?)`. -/
def getInitialState (fsm : Fsm) (fsmRegionName : Option String) : Option Nat :=
  jmGet fsm.initialStates (regionOrDefault fsm fsmRegionName)

/-- `setInitialState(state, fsmRegionName?)`: requires the state to be
registered (looked up by id and name); unmarks the previous holder of the
region, then marks and records the new one.  Returns `false` without
mutating anything when the lookup fails. -/
def setInitialState (fsm : Fsm) (stateOid : Nat) (fsmRegionName : Option String) :
    Bool × Fsm :=
  let region := regionOrDefault fsm fsmRegionName
  let sd := derefHeap fsm.heap stateOid
  match getStateByIdAndName fsm sd.stateId sd.stateName with
  | none => (false, fsm)
  | some lookup =>
    let fsm1 :=
      match jmGet fsm.initialStates region with
      | some curOid =>
        { fsm with heap := jmSet fsm.heap curOid ((derefHeap fsm.heap curOid).unmarkInitial) }
      | none => fsm
    let fsm2 :=
      { fsm1 with heap := jmSet fsm1.heap lookup ((derefHeap fsm1.heap lookup).markInitial region) }
    (true, { fsm2 with initialStates := jmSet fsm2.initialStates region lookup })

/-- `addState(stateName, stateId?)`: auto-assigns `this._states.size` when no
id is supplied, allocates the object, rejects a duplicate id, auto-promotes
to default-region initial when no initial state exists yet. -/
def addState (fsm : Fsm) (stateName : String) (stateId : Option Int) :
    Except (FsmErr × Fsm) (Nat × Fsm) :=
  let sid := match stateId with | none => (jmSize fsm.states : Int) | some i => i
  let newOid := fsm.nextOid
  let newState : FsmState :=
    { fsmName := fsm.name, stateId := sid, stateName := stateName,
      isFinalFlag := false, isDeterministicFlag := true,
      initialStateRegionName := none, transitionTable := some [],
      outputTable := some [] }
  let fsm0 := { fsm with heap := jmSet fsm.heap newOid newState, nextOid := fsm.nextOid + 1 }
  if jmHas fsm0.states sid then Except.error (FsmErr.duplicateState, fsm0)
  else
    let fsm1 := { fsm0 with states := jmSet fsm0.states sid newOid }
    let fsm2 := if jmSize fsm1.initialStates = 0 then (setInitialState fsm1 newOid none).2 else fsm1
    Except.ok (newOid, fsm2)

/-- `addFinalState(stateName, stateId?)`: as `addState` but the object is
constructed final, with no transition or output table. -/
def addFinalState (fsm : Fsm) (stateName : String) (stateId : Option Int) :
    Except (FsmErr × Fsm) (Nat × Fsm) :=
  let sid := match stateId with | none => (jmSize fsm.states : Int) | some i => i
  let newOid := fsm.nextOid
  let newState : FsmState :=
    { fsmName := fsm.name, stateId := sid, stateName := stateName,
      isFinalFlag := true, isDeterministicFlag := true,
      initialStateRegionName := none, transitionTable := none,
      outputTable := none }
  let fsm0 := { fsm with heap := jmSet fsm.heap newOid newState, nextOid := fsm.nextOid + 1 }
  if jmHas fsm0.states sid then Except.error (FsmErr.duplicateState, fsm0)
  else
    let fsm1 := { fsm0 with states := jmSet fsm0.states sid newOid }
    let fsm2 := if jmSize fsm1.initialStates = 0 then (setInitialState fsm1 newOid none).2 else fsm1
    Except.ok (newOid, fsm2)

/-- `addEvent(eventName, eventId?)`: auto-assigns `this._events.size`,
rejects a duplicate id. -/
def addEvent (fsm : Fsm) (eventName : String) (eventId : Option Int) :
    Except (FsmErr × Fsm) (FsmEvent × Fsm) :=
  let eid := match eventId with | none => (jmSize fsm.events : Int) | some i => i
  let newEvent : FsmEvent := { oid := fsm.nextOid, eventId := eid, eventName := eventName }
  let fsm0 := { fsm with nextOid := fsm.nextOid + 1 }
  if jmHas fsm0.events eid then Except.error (FsmErr.duplicateEvent, fsm0)
  else Except.ok (newEvent, { fsm0 with events := jmSet fsm0.events eid newEvent })

/-- `addStateTransition(currentState, onEvent, nextState)`: resolve the three
arguments, enforce the self-transition policy, then delegate to the current
state's `addTransition` (the engine passes no output function). -/
def addStateTransition (fsm : Fsm) (currentState : StateArg) (onEvent : EventArg)
    (nextState : StateArg) : Except (FsmErr × Fsm) (Unit × Fsm) :=
  match resolveStateArg fsm currentState, resolveEventArg fsm onEvent,
      resolveStateArg fsm nextState with
  | some c, some e, some n =>
    if !fsm.allowSelfTransition &&
        FsmState.equals (derefHeap fsm.heap c) (derefHeap fsm.heap n) then
      Except.error (FsmErr.selfTransitionDisabled, fsm)
    else
      match FsmState.addTransition fsm.heap (derefHeap fsm.heap c) (some e) (some n) none with
      | Except.error err => Except.error (err, fsm)
      | Except.ok d' => Except.ok ((), { fsm with heap := jmSet fsm.heap c d' })
  | _, _, _ => Except.error (FsmErr.incompleteTransitionInput, fsm)

/-- The engine state after an operation, whether it returned or threw
(mutations performed before a JS throw persist). -/
def outFsm (r : Except (FsmErr × Fsm) (α × Fsm)) : Fsm :=
  match r with
  | Except.ok (_, f) => f
  | Except.error (_, f) => f

/-- One iteration of `addStateTransitionForAllStates`: skip states reporting
final, try to add and swallow the error. -/
def batchAddBody (e : FsmEvent) (n : Nat) (acc : Fsm) (oid : Nat) : Fsm :=
  if FsmState.isFinalState (derefHeap acc.heap oid) then acc
  else outFsm (addStateTransition acc (StateArg.obj oid) (EventArg.obj e) (StateArg.obj n))

/-- `addStateTransitionForAllStates(onEvent, nextState)`: resolve the two
arguments, then best-effort over every registered state. -/
def addStateTransitionForAllStates (fsm : Fsm) (onEvent : EventArg)
    (nextState : StateArg) : Except (FsmErr × Fsm) (Unit × Fsm) :=
  match resolveEventArg fsm onEvent, resolveStateArg fsm nextState with
  | some e, some n =>
    Except.ok ((), (jmValues fsm.states).foldl (batchAddBody e n) fsm)
  | _, _ => Except.error (FsmErr.incompleteTransitionInput, fsm)

/-- `removeStateTransition(currentState, onEvent)`. -/
def removeStateTransition (fsm : Fsm) (currentState : StateArg) (onEvent : EventArg) :
    Except (FsmErr × Fsm) (Unit × Fsm) :=
  match resolveStateArg fsm currentState, resolveEventArg fsm onEvent with
  | some c, some e =>
    match FsmState.removeTransition (derefHeap fsm.heap c) (some e) with
    | Except.error err => Except.error (err, fsm)
    | Except.ok d' => Except.ok ((), { fsm with heap := jmSet fsm.heap c d' })
  | _, _ => Except.error (FsmErr.incompleteRemoveInput, fsm)

/-- One iteration of `removeAllStatesTransitionForEvent`. -/
def batchRemoveBody (e : FsmEvent) (acc : Fsm) (oid : Nat) : Fsm :=
  if FsmState.isFinalState (derefHeap acc.heap oid) then acc
  else outFsm (removeStateTransition acc (StateArg.obj oid) (EventArg.obj e))

/-- `removeAllStatesTransitionForEvent(onEvent)`. -/
def removeAllStatesTransitionForEvent (fsm : Fsm) (onEvent : EventArg) :
    Except (FsmErr × Fsm) (Unit × Fsm) :=
  match resolveEventArg fsm onEvent with
  | some e => Except.ok ((), (jmValues fsm.states).foldl (batchRemoveBody e) fsm)
  | none => Except.error (FsmErr.incompleteRemoveInput, fsm)

/-- `nextState(currentState, onEvent)` (engine level, pure query). -/
def nextState (fsm : Fsm) (currentState : StateArg) (onEvent : EventArg) : Option Nat :=
  match resolveStateArg fsm currentState, resolveEventArg fsm onEvent with
  | some c, some e => FsmState.nextState (derefHeap fsm.heap c) (some e)
  | _, _ => none

/-- `isTransitionValidByEvent(currentState, onEvent)` (pure query). -/
def isTransitionValidByEvent (fsm : Fsm) (currentState : StateArg) (onEvent : EventArg) : Bool :=
  match resolveStateArg fsm currentState, resolveEventArg fsm onEvent with
  | some c, some e => (FsmState.nextState (derefHeap fsm.heap c) (some e)).isSome
  | _, _ => false

/-- `createTokenInstance(tokenId, fsmRegionName?)`: a blank id and an
existing instance are rejected; the token binds to the region's initial
state, and a creation notification is published. -/
def createTokenInstance (fsm : Fsm) (tokenId : String) (fsmRegionName : Option String) :
    Except (FsmErr × Fsm) (Nat × Fsm) :=
  if trimIsEmpty tokenId then Except.error (FsmErr.invalidTokenId, fsm)
  else if jmHas fsm.tokenInstances tokenId then
    Except.error (FsmErr.tokenExists tokenId, fsm)
  else
    match getInitialState fsm fsmRegionName with
    | none => Except.error (FsmErr.noInitialState (fsmRegionName.getD fsm.name), fsm)
    | some tokOid =>
      Except.ok (tokOid,
        emitTok { fsm with tokenInstances := jmSet fsm.tokenInstances tokenId tokOid }
          (TokAct.tokenCreated tokenId tokOid))

/-- `getTokenInstance(tokenId, autoCreate = true, fsmRegionName?)`. -/
def getTokenInstance (fsm : Fsm) (tokenId : String) (autoCreate : Bool)
    (fsmRegionName : Option String) : Except (FsmErr × Fsm) (Nat × Fsm) :=
  if trimIsEmpty tokenId then
    Except.error (FsmErr.invalidTokenId, emitTok fsm (TokAct.errTokenIdNotFound tokenId))
  else
    match jmGet fsm.tokenInstances tokenId with
    | some t => Except.ok (t, fsm)
    | none =>
      if !autoCreate then
        Except.error (FsmErr.tokenNotExists tokenId,
          emitTok fsm (TokAct.errTokenIdNotFound tokenId))
      else createTokenInstance fsm tokenId fsmRegionName

/-- Tail of `updateTokenToNextState` (source lines 363-369): emit the
self-transition / final-state / state-changed notification, then update the
binding and return the resolved state. -/
def updateTokenFinish (fsm : Fsm) (tokenId : String) (tokenInstance : Nat)
    (event : FsmEvent) (nextOid : Nat) : Except (FsmErr × Fsm) (Nat × Fsm) :=
  let fsmA :=
    if FsmState.equals (derefHeap fsm.heap tokenInstance) (derefHeap fsm.heap nextOid) then
      emitTok fsm (TokAct.transitSelf tokenId tokenInstance event.oid nextOid)
    else if FsmState.isFinalState (derefHeap fsm.heap nextOid) then
      emitTok fsm (TokAct.stateFinal tokenId tokenInstance event.oid nextOid)
    else
      emitTok fsm (TokAct.transitState tokenId tokenInstance event.oid nextOid)
  Except.ok (nextOid,
    { fsmA with tokenInstances := jmSet fsmA.tokenInstances tokenId nextOid })

/-- `updateTokenToNextState(tokenId, onEvent, altStateTable?)`: the
advancement algorithm.  The token instance is resolved (auto-creating),
the event is resolved, the structural next state is computed; a
non-deterministic target demands the resolver, whose result overrides the
tentative one; a missing next state is an invalid state change; the binding
is updated last. -/
def updateTokenToNextState (fsm : Fsm) (tokenId : String) (onEvent : EventArg)
    (altStateTable : Option NdResolver) : Except (FsmErr × Fsm) (Nat × Fsm) :=
  match getTokenInstance fsm tokenId true none with
  | Except.error ef => Except.error ef
  | Except.ok (tokenInstance, fsm1) =>
    match resolveEventArg fsm1 onEvent with
    | none =>
      Except.error (FsmErr.invalidOnEvent,
        emitTok fsm1 (TokAct.errEventNotFound tokenId tokenInstance))
    | some event =>
      match nextState fsm1 (StateArg.obj tokenInstance) (EventArg.obj event) with
      | some ns =>
        if !(derefHeap fsm1.heap ns).isDeterministic then
          match altStateTable with
          | none =>
            Except.error (FsmErr.invalidStateTable "ND",
              emitTok fsm1 (TokAct.errNdStateTableNotFound tokenId tokenInstance ns))
          | some resolver =>
            let fsm2 := emitTok fsm1 (TokAct.transitNonDeterministic tokenId tokenInstance event.oid ns)
            match resolver tokenId tokenInstance event with
            | none =>
              Except.error (FsmErr.invalidStateChange "ND",
                emitTok fsm2 (TokAct.invalidStateChange tokenId tokenInstance event.oid))
            | some ns' => updateTokenFinish fsm2 tokenId tokenInstance event ns'
        else updateTokenFinish fsm1 tokenId tokenInstance event ns
      | none =>
        Except.error (FsmErr.invalidStateChange "",
          emitTok fsm1 (TokAct.invalidStateChange tokenId tokenInstance event.oid))

/-- Direct mutation of a registered state object through an alias, e.g.
`state.markNonDeterministic()` called by the embedding application. -/
def mutateState (fsm : Fsm) (oid : Nat) (f : FsmState → FsmState) : Fsm :=
  { fsm with heap := jmSet fsm.heap oid (f (derefHeap fsm.heap oid)) }

/-- A direct `state.addTransition(onEvent, nextState, output?)` call on a
state object held by the caller (bypassing the engine), as the demo driver
does to attach output functions. -/
def stateAddTransitionVia (fsm : Fsm) (oid : Nat) (onEvent : Option FsmEvent)
    (nextStateOid : Option Nat) (output : Option OutputFn) :
    Except (FsmErr × Fsm) (Unit × Fsm) :=
  match FsmState.addTransition fsm.heap (derefHeap fsm.heap oid) onEvent nextStateOid output with
  | Except.error err => Except.error (err, fsm)
  | Except.ok d' => Except.ok ((), { fsm with heap := jmSet fsm.heap oid d' })

/-- `set allowSelfTransition(allow)`. -/
def setAllowSelfTransition (fsm : Fsm) (allow : Bool) : Fsm :=
  { fsm with allowSelfTransition := allow }

end Fsm

/-- `true` iff the operation returned instead of throwing. -/
def isOkE (r : Except (FsmErr × Fsm) (α × Fsm)) : Bool :=
  match r with
  | Except.ok _ => true
  | Except.error _ => false

/-- The value returned by a successful operation, if any. -/
def okVal (r : Except (FsmErr × Fsm) (α × Fsm)) : Option α :=
  match r with
  | Except.ok (a, _) => some a
  | Except.error _ => none

/-- The error thrown by a failed operation, if any. -/
def errOf (r : Except (FsmErr × Fsm) (α × Fsm)) : Option FsmErr :=
  match r with
  | Except.ok _ => none
  | Except.error (e, _) => some e

/-- Reachable-token invariant (spec invariant 7): every token binding points
at a state registered in the engine's state registry. -/
def TokenInv (fsm : Fsm) : Prop :=
  ∀ t oid, jmGet fsm.tokenInstances t = some oid →
    ∃ sid, jmGet fsm.states sid = some oid

/-- Auxiliary invariant: every initial-state binding points at a registered
state. -/
def InitInv (fsm : Fsm) : Prop :=
  ∀ r oid, jmGet fsm.initialStates r = some oid →
    ∃ sid, jmGet fsm.states sid = some oid

/-- Auxiliary hypothesis for advancement: every target stored in a
transition table of a heap object is a registered state. -/
def TableInv (fsm : Fsm) : Prop :=
  ∀ oid d t eo so, jmGet fsm.heap oid = some d → d.transitionTable = some t →
    jmGet t eo = some so → ∃ sid, jmGet fsm.states sid = some so

/-! ### Basic facts about the embedding -/

theorem equals_refl (a : FsmState) : FsmState.equals a a = true := by
  simp [FsmState.equals]

theorem equals_eq_true_iff (a b : FsmState) :
    FsmState.equals a b = true ↔ a.stateId = b.stateId ∧ a.stateName = b.stateName := by
  simp [FsmState.equals]

theorem equals_trans_ne (x a b : FsmState) (hxa : FsmState.equals x a = true)
    (hba : FsmState.equals b a = false) : FsmState.equals x b = false := by
  rw [equals_eq_true_iff] at hxa
  cases hxb : FsmState.equals x b with
  | false => rfl
  | true =>
    rw [equals_eq_true_iff] at hxb
    have hba' : FsmState.equals b a = true := by
      rw [equals_eq_true_iff]
      exact ⟨hxb.1.symm.trans hxa.1, hxb.2.symm.trans hxa.2⟩
    rw [hba'] at hba
    cases hba

theorem emitTok_states (fsm : Fsm) (a : TokAct) : (Fsm.emitTok fsm a).states = fsm.states := rfl

theorem emitTok_events (fsm : Fsm) (a : TokAct) : (Fsm.emitTok fsm a).events = fsm.events := rfl

theorem emitTok_initialStates (fsm : Fsm) (a : TokAct) :
    (Fsm.emitTok fsm a).initialStates = fsm.initialStates := rfl

theorem emitTok_tokenInstances (fsm : Fsm) (a : TokAct) :
    (Fsm.emitTok fsm a).tokenInstances = fsm.tokenInstances := rfl

theorem emitTok_heap (fsm : Fsm) (a : TokAct) : (Fsm.emitTok fsm a).heap = fsm.heap := rfl

/-! ### Concrete engines used by counterexamples and witnesses

`exM1`/`exM2`/`exM3` replay the start of the repository's own demo driver:
a fresh engine, two ordinary states `Red` (object id 0, state id 0,
auto-promoted initial) and `Green` (object id 1, state id 1), and one event
`E` (object id 2, event id 0). -/

def exM0 : Fsm := Fsm.createNewFiniteStateMachine "m"

def exM1 : Fsm := Fsm.outFsm (Fsm.addState exM0 "Red" none)

def exM2 : Fsm := Fsm.outFsm (Fsm.addState exM1 "Green" none)

def exM3 : Fsm := Fsm.outFsm (Fsm.addEvent exM2 "E" none)

/-- The registered event object `E(0)` of `exM3`. -/
def exE : FsmEvent := { oid := 2, eventId := 0, eventName := "E" }

/-- For claim C1: attach `Red --E--> Green` with an output function of
declared arity 0 (a plain side-effect callback), exactly as the demo driver
attaches one with `addTransition(event, state, fn)`, then create token `t`. -/
def exC1 : Fsm :=
  Fsm.outFsm (Fsm.createTokenInstance
    (Fsm.outFsm (Fsm.stateAddTransitionVia exM3 0 (some exE) (some 1)
      (some { fnId := 7, arity := 0 }))) "t" none)

/-- Claim C1 (code bug).  On `exC1`, `(Red, E)` carries an output function
(`nextOutput` finds it and `executeOutput` would invoke it), and advancing
token `t` on `E` succeeds, moving the binding to `Green` — yet the emitted
trace of the successful advancement contains only the token-created and
state notifications and no output invocation: `updateTokenToNextState`
never calls `executeOutput`, contradicting the claim that the output runs
before the binding update and notification. -/
theorem c1_advancement_never_invokes_output :
    FsmState.nextOutput (derefHeap exC1.heap 0) (some exE) =
      some { fnId := 7, arity := 0 } ∧
    FsmState.executeOutput (derefHeap exC1.heap 0) (some exE) =
      [TokAct.outputInvoked 7 0] ∧
    isOkE (Fsm.updateTokenToNextState exC1 "t" (EventArg.obj exE) none) = true ∧
    (Fsm.outFsm (Fsm.updateTokenToNextState exC1 "t" (EventArg.obj exE) none)).tokenTrace =
      [TokAct.tokenCreated "t" 0, TokAct.stateFinal "t" 0 2 1] ∧
    jmGet (Fsm.outFsm (Fsm.updateTokenToNextState exC1 "t" (EventArg.obj exE) none)).tokenInstances
      "t" = some 1 := by
  decide

/-- Claim C2 counterexample.  On `exM1` (one state `Red`, no events, no
token bindings), `updateTokenToNextState("t", 0)` fails with the
invalid-event error, yet the failed call has lazily created and kept the
binding `t ↦ Red`: the token-instance mapping is not unchanged. -/
theorem c2_failed_update_creates_token_binding :
    jmGet exM1.tokenInstances "t" = none ∧
    errOf (Fsm.updateTokenToNextState exM1 "t" (EventArg.byId 0) none) =
      some FsmErr.invalidOnEvent ∧
    jmGet (Fsm.outFsm (Fsm.updateTokenToNextState exM1 "t" (EventArg.byId 0) none)).tokenInstances
      "t" = some 0 := by
  decide

/-- For claim C3: bind token `t` to `Red`, then `clearAll()`. -/
def exC3 : Fsm :=
  Fsm.clearAll (Fsm.outFsm (Fsm.createTokenInstance exM1 "t" none))

/-- Claim C3 counterexample.  `clearAll` empties the state registry but not
the token-instance map, so afterwards token `t` is still bound to object 0
(`Red`) while no state is registered: the reachable-token invariant fails. -/
theorem c3_clearAll_breaks_token_invariant :
    jmGet exC3.tokenInstances "t" = some 0 ∧ exC3.states = [] ∧ ¬ TokenInv exC3 := by
  refine ⟨by decide, by decide, fun h => ?_⟩
  obtain ⟨sid, hsid⟩ := h "t" 0 (by decide)
  have : jmGet exC3.states sid = none := by
    have he : exC3.states = [] := by decide
    rw [he]
    rfl
  simp [this] at hsid

/-- Claim C5 counterexample.  On `exM3`, `Red` is constructed non-final and
its transition table is empty, so adding `(E → Green)` to it could not
conflict; both batch arguments resolve.  Yet
`addStateTransitionForAllStates(E, Green)` leaves `Red`'s table empty: the
defensive `isFinalState()` treats the empty-table state as final and the
batch skips it, so not every non-final conflict-free state receives the
edge. -/
theorem c5_batch_skips_empty_table_states :
    Fsm.resolveEventArg exM3 (EventArg.byId 0) = some exE ∧
    Fsm.resolveStateArg exM3 (StateArg.byName "Green") = some 1 ∧
    (derefHeap exM3.heap 0).isFinalFlag = false ∧
    (derefHeap exM3.heap 0).transitionTable = some [] ∧
    isOkE (Fsm.addStateTransitionForAllStates exM3 (EventArg.byId 0)
      (StateArg.byName "Green")) = true ∧
    (derefHeap (Fsm.outFsm (Fsm.addStateTransitionForAllStates exM3 (EventArg.byId 0)
      (StateArg.byName "Green"))).heap 0).transitionTable = some [] := by
  decide

/-- For claim C6: `Red` is the auto-promoted default-region initial state of
`exM2`; make `Green` (object 1) the new initial state. -/
def exC6 : Fsm := (Fsm.setInitialState exM2 1 none).2

/-- Claim C6 counterexample.  After `setInitialState(Green)`, `Green` holds
the default region and `Red` has been unmarked — but `Red.isInitialState()`
returns `null` (the JS expression `name && name.length > 0` with `name`
null), not the literal `false`, so `isInitialState() === false` is false. -/
theorem c6_isInitialState_returns_null_not_false :
    (Fsm.setInitialState exM2 1 none).1 = true ∧
    jmGet exC6.initialStates "m" = some 1 ∧
    FsmState.isInitialState (derefHeap exC6.heap 0) = JsValue.vNull ∧
    FsmState.isInitialState (derefHeap exC6.heap 0) ≠ JsValue.vBool false := by
  decide

/-- Claim C10 (confirmed).  `executeOutput` invokes an attached function only
under arities 0, 1 or 2 (plain / Moore / Mealy shapes); a function whose
declared parameter count is three or more is never invoked and the call
returns normally (the dispatch is total, with no throw site). -/
theorem c10_output_arity_dispatch :
    (∀ (d : FsmState) (e : FsmEvent) (f : OutputFn),
      FsmState.nextOutput d (some e) = some f → 3 ≤ f.arity →
      FsmState.executeOutput d (some e) = []) ∧
    (∀ (d : FsmState) (i : Option FsmEvent) (a : TokAct),
      a ∈ FsmState.executeOutput d i →
      ∃ fid n, a = TokAct.outputInvoked fid n ∧ n ≤ 2) := by
  constructor
  · intro d e f h hf
    unfold FsmState.executeOutput
    rw [h]
    have h0 : f.arity ≠ 0 := by omega
    have h1 : f.arity ≠ 1 := by omega
    have h2 : f.arity ≠ 2 := by omega
    simp [h0, h1, h2]
  · intro d i a h
    unfold FsmState.executeOutput at h
    split at h
    · simp at h
    · rename_i f hfeq
      split at h
      · simp at h
        exact ⟨f.fnId, 0, h, by omega⟩
      · split at h
        · simp at h
          exact ⟨f.fnId, 1, h, by omega⟩
        · split at h
          · simp at h
            exact ⟨f.fnId, 2, h, by omega⟩
          · simp at h

/-- A state carrying an output function of declared arity 3 on event `exE`,
for the C10 witness. -/
def exC10State : FsmState :=
  { fsmName := "m", stateId := 0, stateName := "S", isFinalFlag := false,
    isDeterministicFlag := true, initialStateRegionName := none,
    transitionTable := some [(2, 0)],
    outputTable := some [(2, some { fnId := 9, arity := 3 })] }

/-- Witness for C10: on a concrete state whose `(S, E)` output function has
declared arity 3, `executeOutput` performs no invocation. -/
theorem c10_witness :
    FsmState.nextOutput exC10State (some exE) = some { fnId := 9, arity := 3 } ∧
    FsmState.executeOutput exC10State (some exE) = [] := by
  refine ⟨by decide, ?_⟩
  exact c10_output_arity_dispatch.1 exC10State exE { fnId := 9, arity := 3 }
    (by decide) (by decide)

/-- Claim C7 (confirmed).  After a successful `addTransition(E, N1)` on a
non-final state: re-adding `(E, N1)` succeeds and returns the state
unchanged (same table, so same size; the entry for `E` still points at a
state `equals`-equal to `N1`), while adding `(E, N2)` for `N2` not
`equals`-equal to `N1` fails with the transition-conflict error, leaving the
state object untouched (the error is thrown before any mutation). -/
theorem c7_readd_transition_noop_or_conflict
    (heap : JsMap Nat FsmState) (d d' : FsmState) (e : FsmEvent) (n1 : Nat)
    (o1 o2 o3 : Option OutputFn)
    (h : FsmState.addTransition heap d (some e) (some n1) o1 = Except.ok d') :
    (FsmState.addTransition heap d' (some e) (some n1) o2 = Except.ok d' ∧
      ∃ t' cur, d'.transitionTable = some t' ∧ jmGet t' e.oid = some cur ∧
        FsmState.equals (derefHeap heap cur) (derefHeap heap n1) = true) ∧
    (∀ n2, FsmState.equals (derefHeap heap n2) (derefHeap heap n1) = false →
      FsmState.addTransition heap d' (some e) (some n2) o3 =
        Except.error FsmErr.multipleTransition) := by
  unfold FsmState.addTransition at h
  cases ht : d.transitionTable with
  | none => rw [ht] at h; exact absurd h (by simp)
  | some t =>
    rw [ht] at h
    by_cases hf : d.isFinalFlag
    · simp [hf] at h
    · simp only [hf, if_false] at h
      cases hcur : jmGet t e.oid with
      | some cur =>
        rw [hcur] at h
        by_cases heq : FsmState.equals (derefHeap heap cur) (derefHeap heap n1) = true
        · simp only [heq, if_true] at h
          cases h
          constructor
          · constructor
            · unfold FsmState.addTransition
              rw [ht]
              simp only [hf, if_false]
              rw [hcur]
              simp [heq]
            · exact ⟨t, cur, ht, hcur, heq⟩
          · intro n2 hne
            unfold FsmState.addTransition
            rw [ht]
            simp only [hf, if_false]
            rw [hcur]
            have hx := equals_trans_ne (derefHeap heap cur) (derefHeap heap n1)
              (derefHeap heap n2) heq hne
            simp [hx]
        · simp only [heq, if_false] at h
          exact absurd h (by simp)
      | none =>
        rw [hcur] at h
        cases h
        have htab : ({ d with
            transitionTable := some (jmSet t e.oid n1),
            outputTable := d.outputTable.map (fun ot => jmSet ot e.oid o1) } :
              FsmState).transitionTable = some (jmSet t e.oid n1) := rfl
        constructor
        · constructor
          · unfold FsmState.addTransition
            rw [htab]
            simp only [hf, if_false]
            rw [jmGet_jmSet_self]
            simp [equals_refl]
          · exact ⟨jmSet t e.oid n1, n1, htab, jmGet_jmSet_self t e.oid n1, equals_refl _⟩
        · intro n2 hne
          unfold FsmState.addTransition
          rw [htab]
          simp only [hf, if_false]
          rw [jmGet_jmSet_self]
          have hx := equals_trans_ne (derefHeap heap n1) (derefHeap heap n1)
            (derefHeap heap n2) (equals_refl _) hne
          simp [hx]

/-- Successful-result projection for `FsmState` method calls. -/
def okD (r : Except FsmErr FsmState) : Option FsmState :=
  match r with
  | Except.ok d => some d
  | Except.error _ => none

/-- Error projection for `FsmState` method calls. -/
def errD (r : Except FsmErr FsmState) : Option FsmErr :=
  match r with
  | Except.ok _ => none
  | Except.error e => some e

/-- `Red` of `exM3` after a successful `addTransition(E, Green)`. -/
def exC7d1 : FsmState :=
  { fsmName := "m", stateId := 0, stateName := "Red", isFinalFlag := false,
    isDeterministicFlag := true, initialStateRegionName := some "m",
    transitionTable := some [(2, 1)], outputTable := some [(2, none)] }

/-- Witness for C7: on the non-final `Red` of `exM3`, add `(E → Green)`
successfully, then exercise both the no-op re-add of `(E → Green)` and the
conflict on `(E → Red)`. -/
theorem c7_witness :
    okD (FsmState.addTransition exM3.heap (derefHeap exM3.heap 0) (some exE) (some 1) none) =
      some exC7d1 ∧
    okD (FsmState.addTransition exM3.heap exC7d1 (some exE) (some 1) none) = some exC7d1 ∧
    errD (FsmState.addTransition exM3.heap exC7d1 (some exE) (some 0) none) =
      some FsmErr.multipleTransition := by
  have h0 : FsmState.addTransition exM3.heap (derefHeap exM3.heap 0) (some exE) (some 1) none =
      Except.ok exC7d1 := by rfl
  have h := c7_readd_transition_noop_or_conflict exM3.heap (derefHeap exM3.heap 0)
    exC7d1 exE 1 none none none h0
  refine ⟨by rw [h0]; rfl, by rw [h.1.1]; rfl, by rw [h.2 0 (by decide)]; rfl⟩

/-- Claim C9 (confirmed).  The engine is constructed with
`allowSelfTransition = true`.  With the flag `false`, `addStateTransition`
on a source `equals`-equal to its target throws the self-transition error
with the engine completely unchanged; with the flag `true`, a self edge on
the same state object succeeds and `nextState` on that pair returns the
same state. -/
theorem c9_self_transition_policy :
    (∀ nm, (Fsm.createNewFiniteStateMachine nm).allowSelfTransition = true) ∧
    (∀ (fsm : Fsm) (ca na : StateArg) (ea : EventArg) (c n : Nat) (e : FsmEvent),
      fsm.allowSelfTransition = false →
      Fsm.resolveStateArg fsm ca = some c → Fsm.resolveEventArg fsm ea = some e →
      Fsm.resolveStateArg fsm na = some n →
      FsmState.equals (derefHeap fsm.heap c) (derefHeap fsm.heap n) = true →
      Fsm.addStateTransition fsm ca ea na =
        Except.error (FsmErr.selfTransitionDisabled, fsm)) ∧
    (∀ (fsm : Fsm) (c : Nat) (e : FsmEvent) (d : FsmState) (t : JsMap Nat Nat),
      fsm.allowSelfTransition = true →
      jmGet fsm.heap c = some d → d.isFinalFlag = false →
      d.transitionTable = some t → jmGet t e.oid = none →
      isOkE (Fsm.addStateTransition fsm (StateArg.obj c) (EventArg.obj e)
        (StateArg.obj c)) = true ∧
      Fsm.nextState
        (Fsm.outFsm (Fsm.addStateTransition fsm (StateArg.obj c) (EventArg.obj e)
          (StateArg.obj c)))
        (StateArg.obj c) (EventArg.obj e) = some c) := by
  refine ⟨fun nm => rfl, ?_, ?_⟩
  · intro fsm ca na ea c n e hflag hc he hn heq
    unfold Fsm.addStateTransition
    rw [hc, he, hn]
    simp [hflag, heq]
  · intro fsm c e d t hflag hd hfin htab hget
    have hderef : derefHeap fsm.heap c = d := by simp [derefHeap, hd]
    have hadd : FsmState.addTransition fsm.heap (derefHeap fsm.heap c) (some e) (some c) none =
        Except.ok
          { d with
            transitionTable := some (jmSet t e.oid c),
            outputTable := d.outputTable.map (fun ot => jmSet ot e.oid none) } := by
      rw [hderef]
      unfold FsmState.addTransition
      simp only [htab, hfin, hget, Bool.false_eq_true, if_false]
    have hst : Fsm.addStateTransition fsm (StateArg.obj c) (EventArg.obj e) (StateArg.obj c) =
        Except.ok ((),
          { fsm with
            heap := jmSet fsm.heap c
              { d with
                transitionTable := some (jmSet t e.oid c),
                outputTable := d.outputTable.map (fun ot => jmSet ot e.oid none) } }) := by
      unfold Fsm.addStateTransition
      simp only [Fsm.resolveStateArg, Fsm.resolveEventArg]
      rw [hflag, hadd]
      simp
    rw [hst]
    constructor
    · rfl
    · unfold Fsm.outFsm Fsm.nextState
      simp only [Fsm.resolveStateArg, Fsm.resolveEventArg]
      have : derefHeap
          (jmSet fsm.heap c
            { d with
              transitionTable := some (jmSet t e.oid c),
              outputTable := d.outputTable.map (fun ot => jmSet ot e.oid none) }) c =
          { d with
            transitionTable := some (jmSet t e.oid c),
            outputTable := d.outputTable.map (fun ot => jmSet ot e.oid none) } := by
        simp [derefHeap, jmGet_jmSet_self]
      rw [this]
      unfold FsmState.nextState
      simp only [hfin, if_false]
      simp [jmGet_jmSet_self]

theorem jmHas_jmSet_ne [DecidableEq α] (m : JsMap α β) (k k' : α) (v : β)
    (h : k' ≠ k) : jmHas (jmSet m k v) k' = jmHas m k' := by
  unfold jmHas
  rw [jmGet_jmSet_ne m k k' v h]

theorem setInitialState_frame (fsm : Fsm) (s : Nat) (r : Option String) :
    ((Fsm.setInitialState fsm s r).2).states = fsm.states ∧
    ((Fsm.setInitialState fsm s r).2).events = fsm.events ∧
    ((Fsm.setInitialState fsm s r).2).tokenInstances = fsm.tokenInstances := by
  unfold Fsm.setInitialState
  dsimp only
  split
  · exact ⟨rfl, rfl, rfl⟩
  · split <;> exact ⟨rfl, rfl, rfl⟩

theorem addState_none_eq (fsm : Fsm) (nm : String) :
    Fsm.addState fsm nm none = Fsm.addState fsm nm (some (jmSize fsm.states : Int)) := rfl

theorem addFinalState_none_eq (fsm : Fsm) (nm : String) :
    Fsm.addFinalState fsm nm none =
      Fsm.addFinalState fsm nm (some (jmSize fsm.states : Int)) := rfl

theorem addEvent_none_eq (fsm : Fsm) (nm : String) :
    Fsm.addEvent fsm nm none = Fsm.addEvent fsm nm (some (jmSize fsm.events : Int)) := rfl

theorem addState_dup_spec (fsm : Fsm) (nm : String) (sid : Int)
    (hhas : jmHas fsm.states sid = true) :
    errOf (Fsm.addState fsm nm (some sid)) = some FsmErr.duplicateState ∧
    (Fsm.outFsm (Fsm.addState fsm nm (some sid))).states = fsm.states ∧
    (Fsm.outFsm (Fsm.addState fsm nm (some sid))).events = fsm.events ∧
    (Fsm.outFsm (Fsm.addState fsm nm (some sid))).initialStates = fsm.initialStates ∧
    (Fsm.outFsm (Fsm.addState fsm nm (some sid))).tokenInstances = fsm.tokenInstances := by
  unfold Fsm.addState
  dsimp only
  simp [hhas, errOf, Fsm.outFsm]

theorem addState_fresh_spec (fsm : Fsm) (nm : String) (sid : Int)
    (hhas : jmHas fsm.states sid = false) :
    isOkE (Fsm.addState fsm nm (some sid)) = true ∧
    okVal (Fsm.addState fsm nm (some sid)) = some fsm.nextOid ∧
    (Fsm.outFsm (Fsm.addState fsm nm (some sid))).states =
      jmSet fsm.states sid fsm.nextOid ∧
    (Fsm.outFsm (Fsm.addState fsm nm (some sid))).events = fsm.events ∧
    (Fsm.outFsm (Fsm.addState fsm nm (some sid))).tokenInstances = fsm.tokenInstances := by
  unfold Fsm.addState
  dsimp only
  simp only [hhas, Bool.false_eq_true, if_false]
  refine ⟨rfl, rfl, ?_, ?_, ?_⟩ <;>
    · dsimp only [Fsm.outFsm]
      split
      · rename_i hsz
        have hfr := setInitialState_frame
          { fsm with
            heap := jmSet fsm.heap fsm.nextOid
              { fsmName := fsm.name, stateId := sid, stateName := nm,
                isFinalFlag := false, isDeterministicFlag := true,
                initialStateRegionName := none, transitionTable := some [],
                outputTable := some [] },
            nextOid := fsm.nextOid + 1,
            states := jmSet fsm.states sid fsm.nextOid }
          fsm.nextOid none
        first
        | exact hfr.1
        | exact hfr.2.1
        | exact hfr.2.2
      · rfl

theorem addFinalState_dup_spec (fsm : Fsm) (nm : String) (sid : Int)
    (hhas : jmHas fsm.states sid = true) :
    errOf (Fsm.addFinalState fsm nm (some sid)) = some FsmErr.duplicateState ∧
    (Fsm.outFsm (Fsm.addFinalState fsm nm (some sid))).states = fsm.states ∧
    (Fsm.outFsm (Fsm.addFinalState fsm nm (some sid))).events = fsm.events ∧
    (Fsm.outFsm (Fsm.addFinalState fsm nm (some sid))).initialStates = fsm.initialStates ∧
    (Fsm.outFsm (Fsm.addFinalState fsm nm (some sid))).tokenInstances = fsm.tokenInstances := by
  unfold Fsm.addFinalState
  dsimp only
  simp [hhas, errOf, Fsm.outFsm]

theorem addFinalState_fresh_spec (fsm : Fsm) (nm : String) (sid : Int)
    (hhas : jmHas fsm.states sid = false) :
    isOkE (Fsm.addFinalState fsm nm (some sid)) = true ∧
    okVal (Fsm.addFinalState fsm nm (some sid)) = some fsm.nextOid ∧
    (Fsm.outFsm (Fsm.addFinalState fsm nm (some sid))).states =
      jmSet fsm.states sid fsm.nextOid ∧
    (Fsm.outFsm (Fsm.addFinalState fsm nm (some sid))).events = fsm.events ∧
    (Fsm.outFsm (Fsm.addFinalState fsm nm (some sid))).tokenInstances = fsm.tokenInstances := by
  unfold Fsm.addFinalState
  dsimp only
  simp only [hhas, Bool.false_eq_true, if_false]
  refine ⟨rfl, rfl, ?_, ?_, ?_⟩ <;>
    · dsimp only [Fsm.outFsm]
      split
      · rename_i hsz
        have hfr := setInitialState_frame
          { fsm with
            heap := jmSet fsm.heap fsm.nextOid
              { fsmName := fsm.name, stateId := sid, stateName := nm,
                isFinalFlag := true, isDeterministicFlag := true,
                initialStateRegionName := none, transitionTable := none,
                outputTable := none },
            nextOid := fsm.nextOid + 1,
            states := jmSet fsm.states sid fsm.nextOid }
          fsm.nextOid none
        first
        | exact hfr.1
        | exact hfr.2.1
        | exact hfr.2.2
      · rfl

theorem addEvent_dup_spec (fsm : Fsm) (nm : String) (eid : Int)
    (hhas : jmHas fsm.events eid = true) :
    errOf (Fsm.addEvent fsm nm (some eid)) = some FsmErr.duplicateEvent ∧
    (Fsm.outFsm (Fsm.addEvent fsm nm (some eid))).states = fsm.states ∧
    (Fsm.outFsm (Fsm.addEvent fsm nm (some eid))).events = fsm.events ∧
    (Fsm.outFsm (Fsm.addEvent fsm nm (some eid))).initialStates = fsm.initialStates ∧
    (Fsm.outFsm (Fsm.addEvent fsm nm (some eid))).tokenInstances = fsm.tokenInstances := by
  unfold Fsm.addEvent
  dsimp only
  simp [hhas, errOf, Fsm.outFsm]

theorem addEvent_fresh_spec (fsm : Fsm) (nm : String) (eid : Int)
    (hhas : jmHas fsm.events eid = false) :
    isOkE (Fsm.addEvent fsm nm (some eid)) = true ∧
    okVal (Fsm.addEvent fsm nm (some eid)) =
      some { oid := fsm.nextOid, eventId := eid, eventName := nm } ∧
    (Fsm.outFsm (Fsm.addEvent fsm nm (some eid))).events =
      jmSet fsm.events eid { oid := fsm.nextOid, eventId := eid, eventName := nm } ∧
    (Fsm.outFsm (Fsm.addEvent fsm nm (some eid))).states = fsm.states ∧
    (Fsm.outFsm (Fsm.addEvent fsm nm (some eid))).initialStates = fsm.initialStates ∧
    (Fsm.outFsm (Fsm.addEvent fsm nm (some eid))).tokenInstances = fsm.tokenInstances := by
  unfold Fsm.addEvent
  dsimp only
  simp [hhas, isOkE, okVal, Fsm.outFsm]

theorem setInitialState_promote (fsm : Fsm) (oid : Nat)
    (hlook : Fsm.getStateByIdAndName fsm (derefHeap fsm.heap oid).stateId
      (derefHeap fsm.heap oid).stateName = some oid)
    (hini : fsm.initialStates = []) :
    jmGet ((Fsm.setInitialState fsm oid none).2).initialStates fsm.name = some oid := by
  unfold Fsm.setInitialState
  dsimp only
  rw [show Fsm.regionOrDefault fsm none = fsm.name from rfl]
  rw [hlook]
  dsimp only
  rw [hini]
  dsimp only [jmGet]
  rw [hini]
  exact jmGet_jmSet_self _ _ _

theorem setInitialState_replace (fsm : Fsm) (A B : Nat)
    (hold : jmGet fsm.initialStates fsm.name = some A)
    (hlook : Fsm.getStateByIdAndName fsm (derefHeap fsm.heap B).stateId
      (derefHeap fsm.heap B).stateName = some B)
    (hAB : A ≠ B) :
    (Fsm.setInitialState fsm B none).1 = true ∧
    jmGet ((Fsm.setInitialState fsm B none).2).initialStates fsm.name = some B ∧
    derefHeap ((Fsm.setInitialState fsm B none).2).heap A =
      FsmState.unmarkInitial (derefHeap fsm.heap A) := by
  unfold Fsm.setInitialState
  dsimp only
  rw [show Fsm.regionOrDefault fsm none = fsm.name from rfl]
  rw [hlook]
  dsimp only
  rw [hold]
  dsimp only
  refine ⟨rfl, jmGet_jmSet_self _ _ _, ?_⟩
  unfold derefHeap
  rw [jmGet_jmSet_ne _ B A _ hAB, jmGet_jmSet_self]
  rfl

theorem isInitialState_unmark (d : FsmState) :
    FsmState.isInitialState (FsmState.unmarkInitial d) = JsValue.vNull := by
  simp [FsmState.unmarkInitial, FsmState.isInitialState]

theorem addState_fresh_initial (fsm : Fsm) (nm : String) (sid : Int)
    (hhas : jmHas fsm.states sid = false) (hini : fsm.initialStates = []) :
    jmGet (Fsm.outFsm (Fsm.addState fsm nm (some sid))).initialStates fsm.name =
      some fsm.nextOid := by
  unfold Fsm.addState
  dsimp only
  simp only [hhas, Bool.false_eq_true, if_false]
  dsimp only [Fsm.outFsm]
  rw [if_pos (by rw [hini]; rfl)]
  exact setInitialState_promote _ fsm.nextOid
    (by
      unfold Fsm.getStateByIdAndName
      dsimp only
      rw [show derefHeap
          (jmSet fsm.heap fsm.nextOid
            { fsmName := fsm.name, stateId := sid, stateName := nm,
              isFinalFlag := false, isDeterministicFlag := true,
              initialStateRegionName := none, transitionTable := some [],
              outputTable := some [] }) fsm.nextOid =
          { fsmName := fsm.name, stateId := sid, stateName := nm,
            isFinalFlag := false, isDeterministicFlag := true,
            initialStateRegionName := none, transitionTable := some [],
            outputTable := some [] } from by
        unfold derefHeap
        rw [jmGet_jmSet_self]
        rfl]
      rw [jmGet_jmSet_self]
      simp [derefHeap, jmGet_jmSet_self])
    hini

theorem addFinalState_fresh_initial (fsm : Fsm) (nm : String) (sid : Int)
    (hhas : jmHas fsm.states sid = false) (hini : fsm.initialStates = []) :
    jmGet (Fsm.outFsm (Fsm.addFinalState fsm nm (some sid))).initialStates fsm.name =
      some fsm.nextOid := by
  unfold Fsm.addFinalState
  dsimp only
  simp only [hhas, Bool.false_eq_true, if_false]
  dsimp only [Fsm.outFsm]
  rw [if_pos (by rw [hini]; rfl)]
  exact setInitialState_promote _ fsm.nextOid
    (by
      unfold Fsm.getStateByIdAndName
      dsimp only
      rw [show derefHeap
          (jmSet fsm.heap fsm.nextOid
            { fsmName := fsm.name, stateId := sid, stateName := nm,
              isFinalFlag := true, isDeterministicFlag := true,
              initialStateRegionName := none, transitionTable := none,
              outputTable := none }) fsm.nextOid =
          { fsmName := fsm.name, stateId := sid, stateName := nm,
            isFinalFlag := true, isDeterministicFlag := true,
            initialStateRegionName := none, transitionTable := none,
            outputTable := none } from by
        unfold derefHeap
        rw [jmGet_jmSet_self]
        rfl]
      rw [jmGet_jmSet_self]
      simp [derefHeap, jmGet_jmSet_self])
    hini

/-- A batch of `addState` calls with explicitly supplied ids, stopping at
the first error. -/
def addStatesList (fsm : Fsm) : List (String × Int) → Except (FsmErr × Fsm) (Unit × Fsm)
  | [] => Except.ok ((), fsm)
  | (nm, i) :: rest =>
    match Fsm.addState fsm nm (some i) with
    | Except.error ef => Except.error ef
    | Except.ok (_, f) => addStatesList f rest

/-- A batch of `addEvent` calls with explicitly supplied ids, stopping at
the first error. -/
def addEventsList (fsm : Fsm) : List (String × Int) → Except (FsmErr × Fsm) (Unit × Fsm)
  | [] => Except.ok ((), fsm)
  | (nm, i) :: rest =>
    match Fsm.addEvent fsm nm (some i) with
    | Except.error ef => Except.error ef
    | Except.ok (_, f) => addEventsList f rest

theorem addStatesList_ok_of_fresh (l : List (String × Int)) :
    ∀ (fsm : Fsm), (∀ p ∈ l, jmHas fsm.states p.2 = false) →
      (l.map Prod.snd).Nodup → isOkE (addStatesList fsm l) = true := by
  induction l with
  | nil => intro fsm _ _; rfl
  | cons hd rest ih =>
    intro fsm hall hnodup
    obtain ⟨nm, i⟩ := hd
    have hfresh : jmHas fsm.states i = false := hall (nm, i) (List.mem_cons_self _ _)
    have hspec := addState_fresh_spec fsm nm i hfresh
    unfold addStatesList
    cases hadd : Fsm.addState fsm nm (some i) with
    | error ef =>
      rw [hadd] at hspec
      simp [isOkE] at hspec
    | ok rf =>
      obtain ⟨r0, f0⟩ := rf
      have hst : f0.states = jmSet fsm.states i fsm.nextOid := by
        have := hspec.2.2.1
        rw [hadd] at this
        exact this
      simp only [List.map_cons, List.nodup_cons] at hnodup
      refine ih f0 ?_ hnodup.2
      intro p hp
      have hne : p.2 ≠ i := by
        intro hc
        exact hnodup.1 (hc ▸ List.mem_map_of_mem Prod.snd hp)
      rw [hst, jmHas_jmSet_ne fsm.states i p.2 fsm.nextOid hne]
      exact hall p (List.mem_cons_of_mem _ hp)

theorem addEventsList_ok_of_fresh (l : List (String × Int)) :
    ∀ (fsm : Fsm), (∀ p ∈ l, jmHas fsm.events p.2 = false) →
      (l.map Prod.snd).Nodup → isOkE (addEventsList fsm l) = true := by
  induction l with
  | nil => intro fsm _ _; rfl
  | cons hd rest ih =>
    intro fsm hall hnodup
    obtain ⟨nm, i⟩ := hd
    have hfresh : jmHas fsm.events i = false := hall (nm, i) (List.mem_cons_self _ _)
    have hspec := addEvent_fresh_spec fsm nm i hfresh
    unfold addEventsList
    cases hadd : Fsm.addEvent fsm nm (some i) with
    | error ef =>
      rw [hadd] at hspec
      simp [isOkE] at hspec
    | ok rf =>
      obtain ⟨r0, f0⟩ := rf
      have hst : f0.events =
          jmSet fsm.events i { oid := fsm.nextOid, eventId := i, eventName := nm } := by
        have := hspec.2.2.1
        rw [hadd] at this
        exact this
      simp only [List.map_cons, List.nodup_cons] at hnodup
      refine ih f0 ?_ hnodup.2
      intro p hp
      have hne : p.2 ≠ i := by
        intro hc
        exact hnodup.1 (hc ▸ List.mem_map_of_mem Prod.snd hp)
      rw [hst, jmHas_jmSet_ne fsm.events i p.2 _ hne]
      exact hall p (List.mem_cons_of_mem _ hp)

/-- The three structural registries agree between two engine snapshots. -/
def RegistriesEq (f fsm : Fsm) : Prop :=
  f.states = fsm.states ∧ f.events = fsm.events ∧ f.initialStates = fsm.initialStates

/-- Both reachability invariants at once. -/
def Invs (fsm : Fsm) : Prop := TokenInv fsm ∧ InitInv fsm

theorem invs_of_eq (f fsm : Fsm) (hs : f.states = fsm.states)
    (hi : f.initialStates = fsm.initialStates)
    (ht : f.tokenInstances = fsm.tokenInstances) (h : Invs fsm) : Invs f := by
  constructor
  · intro t oid hget
    rw [ht] at hget
    rw [hs]
    exact h.1 t oid hget
  · intro r oid hget
    rw [hi] at hget
    rw [hs]
    exact h.2 r oid hget

theorem registered_mono_jmSet (m : JsMap Int Nat) (k : Int) (v oid : Nat)
    (hk : jmHas m k = false) (h : ∃ sid, jmGet m sid = some oid) :
    ∃ sid, jmGet (jmSet m k v) sid = some oid := by
  obtain ⟨sid, hsid⟩ := h
  have hne : sid ≠ k := by
    intro hc
    rw [jmHas_eq_false_iff] at hk
    rw [hc, hk] at hsid
    cases hsid
  exact ⟨sid, by rw [jmGet_jmSet_ne m k sid v hne]; exact hsid⟩

theorem tokenInv_update (states : JsMap Int Nat) (tokens : JsMap String Nat)
    (tid : String) (v : Nat)
    (h : ∀ t oid, jmGet tokens t = some oid → ∃ sid, jmGet states sid = some oid)
    (hv : ∃ sid, jmGet states sid = some v) :
    ∀ t oid, jmGet (jmSet tokens tid v) t = some oid →
      ∃ sid, jmGet states sid = some oid := by
  intro t oid hget
  rw [jmGet_jmSet] at hget
  by_cases hc : t = tid
  · rw [if_pos hc] at hget
    cases hget
    exact hv
  · rw [if_neg hc] at hget
    exact h t oid hget

theorem getStateByIdAndName_registered (fsm : Fsm) (a : Int) (b : String) (oid : Nat)
    (h : Fsm.getStateByIdAndName fsm a b = some oid) :
    ∃ sid, jmGet fsm.states sid = some oid := by
  unfold Fsm.getStateByIdAndName at h
  split at h
  · cases h
  · rename_i oid0 hsc
    split at h
    · cases h
      exact ⟨a, hsc⟩
    · cases h

theorem setInitialState_initialStates_char (fsm : Fsm) (s : Nat) (r : Option String) :
    ((Fsm.setInitialState fsm s r).2).initialStates = fsm.initialStates ∨
    ∃ lookup, Fsm.getStateByIdAndName fsm (derefHeap fsm.heap s).stateId
        (derefHeap fsm.heap s).stateName = some lookup ∧
      ((Fsm.setInitialState fsm s r).2).initialStates =
        jmSet fsm.initialStates (Fsm.regionOrDefault fsm r) lookup := by
  unfold Fsm.setInitialState
  dsimp only
  split
  · exact Or.inl rfl
  · rename_i lookup hlook
    refine Or.inr ⟨lookup, hlook, ?_⟩
    split <;> rfl

theorem setInitialState_invs (fsm : Fsm) (s : Nat) (r : Option String)
    (h : Invs fsm) : Invs ((Fsm.setInitialState fsm s r).2) := by
  have hfr := setInitialState_frame fsm s r
  constructor
  · intro t oid hget
    rw [hfr.2.2] at hget
    rw [hfr.1]
    exact h.1 t oid hget
  · intro rr oid hget
    rw [hfr.1]
    rcases setInitialState_initialStates_char fsm s r with hch | ⟨lookup, hlook, hch⟩
    · rw [hch] at hget
      exact h.2 rr oid hget
    · rw [hch, jmGet_jmSet] at hget
      by_cases hc : rr = Fsm.regionOrDefault fsm r
      · rw [if_pos hc] at hget
        cases hget
        exact getStateByIdAndName_registered fsm _ _ oid hlook
      · rw [if_neg hc] at hget
        exact h.2 rr oid hget

theorem addState_invs_some (fsm : Fsm) (nm : String) (i : Int)
    (h : Invs fsm) : Invs (Fsm.outFsm (Fsm.addState fsm nm (some i))) := by
  unfold Fsm.addState
  dsimp only
  split
  · exact invs_of_eq _ fsm rfl rfl rfl h
  · rename_i hhas
    have hhas' : jmHas fsm.states i = false := by
      revert hhas
      cases jmHas fsm.states i <;> simp
    dsimp only [Fsm.outFsm]
    have hinv1 : Invs
        { fsm with
          heap := jmSet fsm.heap fsm.nextOid
            { fsmName := fsm.name, stateId := i, stateName := nm,
              isFinalFlag := false, isDeterministicFlag := true,
              initialStateRegionName := none, transitionTable := some [],
              outputTable := some [] },
          nextOid := fsm.nextOid + 1,
          states := jmSet fsm.states i fsm.nextOid } := by
      constructor
      · intro t oid hget
        exact registered_mono_jmSet fsm.states i fsm.nextOid oid hhas' (h.1 t oid hget)
      · intro rr oid hget
        exact registered_mono_jmSet fsm.states i fsm.nextOid oid hhas' (h.2 rr oid hget)
    split
    · exact setInitialState_invs _ fsm.nextOid none hinv1
    · exact hinv1

theorem addState_invs (fsm : Fsm) (nm : String) (sid : Option Int)
    (h : Invs fsm) : Invs (Fsm.outFsm (Fsm.addState fsm nm sid)) := by
  cases sid with
  | none =>
    rw [addState_none_eq]
    exact addState_invs_some fsm nm _ h
  | some i => exact addState_invs_some fsm nm i h

theorem addFinalState_invs_some (fsm : Fsm) (nm : String) (i : Int)
    (h : Invs fsm) : Invs (Fsm.outFsm (Fsm.addFinalState fsm nm (some i))) := by
  unfold Fsm.addFinalState
  dsimp only
  split
  · exact invs_of_eq _ fsm rfl rfl rfl h
  · rename_i hhas
    have hhas' : jmHas fsm.states i = false := by
      revert hhas
      cases jmHas fsm.states i <;> simp
    dsimp only [Fsm.outFsm]
    have hinv1 : Invs
        { fsm with
          heap := jmSet fsm.heap fsm.nextOid
            { fsmName := fsm.name, stateId := i, stateName := nm,
              isFinalFlag := true, isDeterministicFlag := true,
              initialStateRegionName := none, transitionTable := none,
              outputTable := none },
          nextOid := fsm.nextOid + 1,
          states := jmSet fsm.states i fsm.nextOid } := by
      constructor
      · intro t oid hget
        exact registered_mono_jmSet fsm.states i fsm.nextOid oid hhas' (h.1 t oid hget)
      · intro rr oid hget
        exact registered_mono_jmSet fsm.states i fsm.nextOid oid hhas' (h.2 rr oid hget)
    split
    · exact setInitialState_invs _ fsm.nextOid none hinv1
    · exact hinv1

theorem addFinalState_invs (fsm : Fsm) (nm : String) (sid : Option Int)
    (h : Invs fsm) : Invs (Fsm.outFsm (Fsm.addFinalState fsm nm sid)) := by
  cases sid with
  | none =>
    rw [addFinalState_none_eq]
    exact addFinalState_invs_some fsm nm _ h
  | some i => exact addFinalState_invs_some fsm nm i h

theorem addEvent_invs (fsm : Fsm) (nm : String) (eid : Option Int)
    (h : Invs fsm) : Invs (Fsm.outFsm (Fsm.addEvent fsm nm eid)) := by
  unfold Fsm.addEvent
  dsimp only
  split <;> exact invs_of_eq _ fsm rfl rfl rfl h

theorem addStateTransition_maps (fsm : Fsm) (a : StateArg) (b : EventArg) (c : StateArg) :
    (Fsm.outFsm (Fsm.addStateTransition fsm a b c)).states = fsm.states ∧
    (Fsm.outFsm (Fsm.addStateTransition fsm a b c)).initialStates = fsm.initialStates ∧
    (Fsm.outFsm (Fsm.addStateTransition fsm a b c)).tokenInstances = fsm.tokenInstances := by
  unfold Fsm.addStateTransition
  split
  · split
    · exact ⟨rfl, rfl, rfl⟩
    · split <;> exact ⟨rfl, rfl, rfl⟩
  · exact ⟨rfl, rfl, rfl⟩

theorem batchAddBody_maps (e : FsmEvent) (n : Nat) (acc : Fsm) (oid : Nat) :
    (Fsm.batchAddBody e n acc oid).states = acc.states ∧
    (Fsm.batchAddBody e n acc oid).initialStates = acc.initialStates ∧
    (Fsm.batchAddBody e n acc oid).tokenInstances = acc.tokenInstances := by
  unfold Fsm.batchAddBody
  split
  · exact ⟨rfl, rfl, rfl⟩
  · exact addStateTransition_maps acc _ _ _

theorem foldl_batchAdd_maps (e : FsmEvent) (n : Nat) (l : List Nat) :
    ∀ (fsm : Fsm),
      ((l.foldl (Fsm.batchAddBody e n) fsm)).states = fsm.states ∧
      ((l.foldl (Fsm.batchAddBody e n) fsm)).initialStates = fsm.initialStates ∧
      ((l.foldl (Fsm.batchAddBody e n) fsm)).tokenInstances = fsm.tokenInstances := by
  induction l with
  | nil => intro fsm; exact ⟨rfl, rfl, rfl⟩
  | cons hd tl ih =>
    intro fsm
    have hb := batchAddBody_maps e n fsm hd
    have hi := ih (Fsm.batchAddBody e n fsm hd)
    simp only [List.foldl_cons]
    exact ⟨hi.1.trans hb.1, hi.2.1.trans hb.2.1, hi.2.2.trans hb.2.2⟩

theorem addStateTransitionForAllStates_maps (fsm : Fsm) (b : EventArg) (c : StateArg) :
    (Fsm.outFsm (Fsm.addStateTransitionForAllStates fsm b c)).states = fsm.states ∧
    (Fsm.outFsm (Fsm.addStateTransitionForAllStates fsm b c)).initialStates =
      fsm.initialStates ∧
    (Fsm.outFsm (Fsm.addStateTransitionForAllStates fsm b c)).tokenInstances =
      fsm.tokenInstances := by
  unfold Fsm.addStateTransitionForAllStates
  split
  · exact foldl_batchAdd_maps _ _ _ fsm
  · exact ⟨rfl, rfl, rfl⟩

theorem removeStateTransition_maps (fsm : Fsm) (a : StateArg) (b : EventArg) :
    (Fsm.outFsm (Fsm.removeStateTransition fsm a b)).states = fsm.states ∧
    (Fsm.outFsm (Fsm.removeStateTransition fsm a b)).initialStates = fsm.initialStates ∧
    (Fsm.outFsm (Fsm.removeStateTransition fsm a b)).tokenInstances = fsm.tokenInstances := by
  unfold Fsm.removeStateTransition
  split
  · split <;> exact ⟨rfl, rfl, rfl⟩
  · exact ⟨rfl, rfl, rfl⟩

theorem batchRemoveBody_maps (e : FsmEvent) (acc : Fsm) (oid : Nat) :
    (Fsm.batchRemoveBody e acc oid).states = acc.states ∧
    (Fsm.batchRemoveBody e acc oid).initialStates = acc.initialStates ∧
    (Fsm.batchRemoveBody e acc oid).tokenInstances = acc.tokenInstances := by
  unfold Fsm.batchRemoveBody
  split
  · exact ⟨rfl, rfl, rfl⟩
  · exact removeStateTransition_maps acc _ _

theorem foldl_batchRemove_maps (e : FsmEvent) (l : List Nat) :
    ∀ (fsm : Fsm),
      ((l.foldl (Fsm.batchRemoveBody e) fsm)).states = fsm.states ∧
      ((l.foldl (Fsm.batchRemoveBody e) fsm)).initialStates = fsm.initialStates ∧
      ((l.foldl (Fsm.batchRemoveBody e) fsm)).tokenInstances = fsm.tokenInstances := by
  induction l with
  | nil => intro fsm; exact ⟨rfl, rfl, rfl⟩
  | cons hd tl ih =>
    intro fsm
    have hb := batchRemoveBody_maps e fsm hd
    have hi := ih (Fsm.batchRemoveBody e fsm hd)
    simp only [List.foldl_cons]
    exact ⟨hi.1.trans hb.1, hi.2.1.trans hb.2.1, hi.2.2.trans hb.2.2⟩

theorem removeAllStatesTransitionForEvent_maps (fsm : Fsm) (b : EventArg) :
    (Fsm.outFsm (Fsm.removeAllStatesTransitionForEvent fsm b)).states = fsm.states ∧
    (Fsm.outFsm (Fsm.removeAllStatesTransitionForEvent fsm b)).initialStates =
      fsm.initialStates ∧
    (Fsm.outFsm (Fsm.removeAllStatesTransitionForEvent fsm b)).tokenInstances =
      fsm.tokenInstances := by
  unfold Fsm.removeAllStatesTransitionForEvent
  split
  · exact foldl_batchRemove_maps _ _ fsm
  · exact ⟨rfl, rfl, rfl⟩

theorem addState_error_frame (fsm : Fsm) (nm : String) (sid : Option Int)
    (e : FsmErr) (f : Fsm) (h : Fsm.addState fsm nm sid = Except.error (e, f)) :
    RegistriesEq f fsm ∧ f.tokenInstances = fsm.tokenInstances := by
  unfold Fsm.addState at h
  dsimp only at h
  split at h
  · simp only [Except.error.injEq, Prod.mk.injEq] at h
    rw [← h.2]
    exact ⟨⟨rfl, rfl, rfl⟩, rfl⟩
  · simp at h

theorem addFinalState_error_frame (fsm : Fsm) (nm : String) (sid : Option Int)
    (e : FsmErr) (f : Fsm) (h : Fsm.addFinalState fsm nm sid = Except.error (e, f)) :
    RegistriesEq f fsm ∧ f.tokenInstances = fsm.tokenInstances := by
  unfold Fsm.addFinalState at h
  dsimp only at h
  split at h
  · simp only [Except.error.injEq, Prod.mk.injEq] at h
    rw [← h.2]
    exact ⟨⟨rfl, rfl, rfl⟩, rfl⟩
  · simp at h

theorem addEvent_error_frame (fsm : Fsm) (nm : String) (eid : Option Int)
    (e : FsmErr) (f : Fsm) (h : Fsm.addEvent fsm nm eid = Except.error (e, f)) :
    RegistriesEq f fsm ∧ f.tokenInstances = fsm.tokenInstances := by
  unfold Fsm.addEvent at h
  dsimp only at h
  split at h
  · simp only [Except.error.injEq, Prod.mk.injEq] at h
    rw [← h.2]
    exact ⟨⟨rfl, rfl, rfl⟩, rfl⟩
  · simp at h

theorem setInitialState_false_eq (fsm : Fsm) (s : Nat) (r : Option String)
    (h : (Fsm.setInitialState fsm s r).1 = false) :
    (Fsm.setInitialState fsm s r).2 = fsm := by
  unfold Fsm.setInitialState at h ⊢
  dsimp only at h ⊢
  split at h
  · rfl
  · simp at h

theorem addStateTransition_error_eq (fsm : Fsm) (a : StateArg) (b : EventArg)
    (c : StateArg) (e : FsmErr) (f : Fsm)
    (h : Fsm.addStateTransition fsm a b c = Except.error (e, f)) : f = fsm := by
  unfold Fsm.addStateTransition at h
  split at h
  · split at h
    · simp only [Except.error.injEq, Prod.mk.injEq] at h
      exact h.2.symm
    · split at h
      · simp only [Except.error.injEq, Prod.mk.injEq] at h
        exact h.2.symm
      · simp at h
  · simp only [Except.error.injEq, Prod.mk.injEq] at h
    exact h.2.symm

theorem removeStateTransition_error_eq (fsm : Fsm) (a : StateArg) (b : EventArg)
    (e : FsmErr) (f : Fsm)
    (h : Fsm.removeStateTransition fsm a b = Except.error (e, f)) : f = fsm := by
  unfold Fsm.removeStateTransition at h
  split at h
  · split at h
    · simp only [Except.error.injEq, Prod.mk.injEq] at h
      exact h.2.symm
    · simp at h
  · simp only [Except.error.injEq, Prod.mk.injEq] at h
    exact h.2.symm

theorem addStateTransitionForAllStates_error_eq (fsm : Fsm) (b : EventArg)
    (c : StateArg) (e : FsmErr) (f : Fsm)
    (h : Fsm.addStateTransitionForAllStates fsm b c = Except.error (e, f)) : f = fsm := by
  unfold Fsm.addStateTransitionForAllStates at h
  split at h
  · simp at h
  · simp only [Except.error.injEq, Prod.mk.injEq] at h
    exact h.2.symm

theorem removeAllStatesTransitionForEvent_error_eq (fsm : Fsm) (b : EventArg)
    (e : FsmErr) (f : Fsm)
    (h : Fsm.removeAllStatesTransitionForEvent fsm b = Except.error (e, f)) : f = fsm := by
  unfold Fsm.removeAllStatesTransitionForEvent at h
  split at h
  · simp at h
  · simp only [Except.error.injEq, Prod.mk.injEq] at h
    exact h.2.symm

theorem updateTokenFinish_spec (fsm : Fsm) (tid : String) (ti : Nat) (ev : FsmEvent)
    (n : Nat) :
    isOkE (Fsm.updateTokenFinish fsm tid ti ev n) = true ∧
    okVal (Fsm.updateTokenFinish fsm tid ti ev n) = some n ∧
    (Fsm.outFsm (Fsm.updateTokenFinish fsm tid ti ev n)).states = fsm.states ∧
    (Fsm.outFsm (Fsm.updateTokenFinish fsm tid ti ev n)).events = fsm.events ∧
    (Fsm.outFsm (Fsm.updateTokenFinish fsm tid ti ev n)).initialStates = fsm.initialStates ∧
    (Fsm.outFsm (Fsm.updateTokenFinish fsm tid ti ev n)).heap = fsm.heap ∧
    (Fsm.outFsm (Fsm.updateTokenFinish fsm tid ti ev n)).tokenInstances =
      jmSet fsm.tokenInstances tid n := by
  unfold Fsm.updateTokenFinish
  split
  · simp [isOkE, okVal, Fsm.outFsm, Fsm.emitTok]
  · split <;> simp [isOkE, okVal, Fsm.outFsm, Fsm.emitTok]

theorem createTokenInstance_error_frame (fsm : Fsm) (tid : String) (rg : Option String)
    (e : FsmErr) (f : Fsm)
    (h : Fsm.createTokenInstance fsm tid rg = Except.error (e, f)) : f = fsm := by
  unfold Fsm.createTokenInstance at h
  split at h
  · simp only [Except.error.injEq, Prod.mk.injEq] at h
    exact h.2.symm
  · split at h
    · simp only [Except.error.injEq, Prod.mk.injEq] at h
      exact h.2.symm
    · split at h
      · simp only [Except.error.injEq, Prod.mk.injEq] at h
        exact h.2.symm
      · simp at h

theorem createTokenInstance_ok_spec (fsm : Fsm) (tid : String) (rg : Option String)
    (tok : Nat) (f : Fsm)
    (h : Fsm.createTokenInstance fsm tid rg = Except.ok (tok, f)) :
    Fsm.getInitialState fsm rg = some tok ∧
    f.states = fsm.states ∧ f.events = fsm.events ∧
    f.initialStates = fsm.initialStates ∧ f.heap = fsm.heap ∧
    f.tokenInstances = jmSet fsm.tokenInstances tid tok ∧
    jmGet fsm.tokenInstances tid = none := by
  unfold Fsm.createTokenInstance at h
  split at h
  · simp at h
  · split at h
    · simp at h
    · rename_i hhas
      split at h
      · simp at h
      · rename_i tokOid hini
        simp only [Except.ok.injEq, Prod.mk.injEq] at h
        obtain ⟨h1, h2⟩ := h
        subst h1
        subst h2
        refine ⟨hini, rfl, rfl, rfl, rfl, rfl, ?_⟩
        rw [← jmHas_eq_false_iff]
        revert hhas
        cases jmHas fsm.tokenInstances tid <;> simp

theorem getTokenInstance_error_frame (fsm : Fsm) (tid : String) (ac : Bool)
    (rg : Option String) (e : FsmErr) (f : Fsm)
    (h : Fsm.getTokenInstance fsm tid ac rg = Except.error (e, f)) :
    f.states = fsm.states ∧ f.events = fsm.events ∧
    f.initialStates = fsm.initialStates ∧ f.heap = fsm.heap ∧
    f.tokenInstances = fsm.tokenInstances := by
  unfold Fsm.getTokenInstance at h
  split at h
  · simp only [Except.error.injEq, Prod.mk.injEq] at h
    rw [← h.2]
    exact ⟨rfl, rfl, rfl, rfl, rfl⟩
  · split at h
    · simp at h
    · split at h
      · simp only [Except.error.injEq, Prod.mk.injEq] at h
        rw [← h.2]
        exact ⟨rfl, rfl, rfl, rfl, rfl⟩
      · have := createTokenInstance_error_frame fsm tid rg e f h
        subst this
        exact ⟨rfl, rfl, rfl, rfl, rfl⟩

theorem getTokenInstance_ok_spec (fsm : Fsm) (tid : String) (ac : Bool)
    (rg : Option String) (tok : Nat) (f : Fsm)
    (h : Fsm.getTokenInstance fsm tid ac rg = Except.ok (tok, f)) :
    f.states = fsm.states ∧ f.events = fsm.events ∧
    f.initialStates = fsm.initialStates ∧ f.heap = fsm.heap ∧
    ((f.tokenInstances = fsm.tokenInstances ∧ jmGet fsm.tokenInstances tid = some tok) ∨
     (jmGet fsm.tokenInstances tid = none ∧ Fsm.getInitialState fsm rg = some tok ∧
      f.tokenInstances = jmSet fsm.tokenInstances tid tok)) := by
  unfold Fsm.getTokenInstance at h
  split at h
  · simp at h
  · rename_i htr
    split at h
    · rename_i t0 hsome
      simp only [Except.ok.injEq, Prod.mk.injEq] at h
      obtain ⟨h1, h2⟩ := h
      subst h1
      subst h2
      exact ⟨rfl, rfl, rfl, rfl, Or.inl ⟨rfl, hsome⟩⟩
    · rename_i hnone
      split at h
      · simp at h
      · have hs := createTokenInstance_ok_spec fsm tid rg tok f h
        exact ⟨hs.2.1, hs.2.2.1, hs.2.2.2.1, hs.2.2.2.2.1,
          Or.inr ⟨hs.2.2.2.2.2.2, hs.1, hs.2.2.2.2.2.1⟩⟩

theorem updateTokenFinish_ne_error (fsm : Fsm) (tid : String) (ti : Nat)
    (ev : FsmEvent) (n : Nat) (e : FsmErr) (f : Fsm) :
    Fsm.updateTokenFinish fsm tid ti ev n ≠ Except.error (e, f) := by
  intro h
  have hsp := (updateTokenFinish_spec fsm tid ti ev n).1
  rw [h] at hsp
  simp [isOkE] at hsp

theorem updateTokenToNextState_error_spec (fsm : Fsm) (tid : String) (ea : EventArg)
    (rsv : Option NdResolver) (e : FsmErr) (f : Fsm)
    (h : Fsm.updateTokenToNextState fsm tid ea rsv = Except.error (e, f)) :
    RegistriesEq f fsm ∧ f.heap = fsm.heap ∧
    (f.tokenInstances = fsm.tokenInstances ∨
      ∃ so, Fsm.getInitialState fsm none = some so ∧
        f.tokenInstances = jmSet fsm.tokenInstances tid so) := by
  unfold Fsm.updateTokenToNextState at h
  split at h
  · rename_i ef heq
    simp only [Except.error.injEq] at h
    have hfr := getTokenInstance_error_frame fsm tid true none e f (by rw [heq, h])
    exact ⟨⟨hfr.1, hfr.2.1, hfr.2.2.1⟩, hfr.2.2.2.1, Or.inl hfr.2.2.2.2⟩
  · rename_i tok fsm1 heq
    have hok := getTokenInstance_ok_spec fsm tid true none tok fsm1 heq
    have htokens : f.tokenInstances = fsm1.tokenInstances →
        (f.tokenInstances = fsm.tokenInstances ∨
          ∃ so, Fsm.getInitialState fsm none = some so ∧
            f.tokenInstances = jmSet fsm.tokenInstances tid so) := by
      intro hft
      rcases hok.2.2.2.2 with ⟨h1, _⟩ | ⟨_, hini, h1⟩
      · exact Or.inl (hft.trans h1)
      · exact Or.inr ⟨tok, hini, hft.trans h1⟩
    split at h
    · simp only [Except.error.injEq, Prod.mk.injEq] at h
      obtain ⟨-, h2⟩ := h
      subst h2
      exact ⟨⟨hok.1, hok.2.1, hok.2.2.1⟩, hok.2.2.2.1, htokens rfl⟩
    · split at h
      · split at h
        · split at h
          · simp only [Except.error.injEq, Prod.mk.injEq] at h
            obtain ⟨-, h2⟩ := h
            subst h2
            exact ⟨⟨hok.1, hok.2.1, hok.2.2.1⟩, hok.2.2.2.1, htokens rfl⟩
          · split at h
            · simp only [Except.error.injEq, Prod.mk.injEq] at h
              obtain ⟨-, h2⟩ := h
              subst h2
              exact ⟨⟨hok.1, hok.2.1, hok.2.2.1⟩, hok.2.2.2.1, htokens rfl⟩
            · exact absurd h (updateTokenFinish_ne_error _ _ _ _ _ _ _)
        · exact absurd h (updateTokenFinish_ne_error _ _ _ _ _ _ _)
      · simp only [Except.error.injEq, Prod.mk.injEq] at h
        obtain ⟨-, h2⟩ := h
        subst h2
        exact ⟨⟨hok.1, hok.2.1, hok.2.2.1⟩, hok.2.2.2.1, htokens rfl⟩

theorem createTokenInstance_invs (fsm : Fsm) (tid : String) (rg : Option String)
    (h : Invs fsm) : Invs (Fsm.outFsm (Fsm.createTokenInstance fsm tid rg)) := by
  cases hres : Fsm.createTokenInstance fsm tid rg with
  | error ef =>
    obtain ⟨e0, f0⟩ := ef
    have := createTokenInstance_error_frame fsm tid rg e0 f0 hres
    subst this
    exact h
  | ok rf =>
    obtain ⟨tok, f0⟩ := rf
    have hs := createTokenInstance_ok_spec fsm tid rg tok f0 hres
    have hreg : ∃ sid, jmGet fsm.states sid = some tok :=
      h.2 (Fsm.regionOrDefault fsm rg) tok hs.1
    constructor
    · intro t oid hget
      rw [show (Fsm.outFsm (Except.ok (tok, f0)) : Fsm) = f0 from rfl] at hget ⊢
      rw [hs.2.2.2.2.2.1] at hget
      rw [hs.2.1]
      exact tokenInv_update fsm.states fsm.tokenInstances tid tok h.1 hreg t oid hget
    · intro rr oid hget
      rw [show (Fsm.outFsm (Except.ok (tok, f0)) : Fsm) = f0 from rfl] at hget ⊢
      rw [hs.2.2.2.1] at hget
      rw [hs.2.1]
      exact h.2 rr oid hget

theorem getTokenInstance_invs (fsm : Fsm) (tid : String) (ac : Bool)
    (rg : Option String) (h : Invs fsm) :
    Invs (Fsm.outFsm (Fsm.getTokenInstance fsm tid ac rg)) := by
  cases hres : Fsm.getTokenInstance fsm tid ac rg with
  | error ef =>
    obtain ⟨e0, f0⟩ := ef
    have hfr := getTokenInstance_error_frame fsm tid ac rg e0 f0 hres
    exact invs_of_eq _ fsm hfr.1 hfr.2.2.1 hfr.2.2.2.2 h
  | ok rf =>
    obtain ⟨tok, f0⟩ := rf
    have hs := getTokenInstance_ok_spec fsm tid ac rg tok f0 hres
    rcases hs.2.2.2.2 with ⟨ht, _⟩ | ⟨_, hini, ht⟩
    · exact invs_of_eq _ fsm hs.1 hs.2.2.1 ht h
    · have hreg : ∃ sid, jmGet fsm.states sid = some tok :=
        h.2 (Fsm.regionOrDefault fsm rg) tok hini
      constructor
      · intro t oid hget
        rw [show (Fsm.outFsm (Except.ok (tok, f0)) : Fsm) = f0 from rfl] at hget ⊢
        rw [ht] at hget
        rw [hs.1]
        exact tokenInv_update fsm.states fsm.tokenInstances tid tok h.1 hreg t oid hget
      · intro rr oid hget
        rw [show (Fsm.outFsm (Except.ok (tok, f0)) : Fsm) = f0 from rfl] at hget ⊢
        rw [hs.2.2.1] at hget
        rw [hs.1]
        exact h.2 rr oid hget

theorem updateTokenFinish_invs (fsm : Fsm) (tid : String) (ti : Nat) (ev : FsmEvent)
    (n : Nat) (h : Invs fsm) (hreg : ∃ sid, jmGet fsm.states sid = some n) :
    Invs (Fsm.outFsm (Fsm.updateTokenFinish fsm tid ti ev n)) := by
  have hs := updateTokenFinish_spec fsm tid ti ev n
  constructor
  · intro t oid hget
    rw [hs.2.2.2.2.2.2] at hget
    rw [hs.2.2.1]
    exact tokenInv_update fsm.states fsm.tokenInstances tid n h.1 hreg t oid hget
  · intro rr oid hget
    rw [hs.2.2.2.2.1] at hget
    rw [hs.2.2.1]
    exact h.2 rr oid hget

theorem nextState_registered (fsm : Fsm) (c ns : Nat) (e : FsmEvent)
    (htable : TableInv fsm)
    (h : Fsm.nextState fsm (StateArg.obj c) (EventArg.obj e) = some ns) :
    ∃ sid, jmGet fsm.states sid = some ns := by
  unfold Fsm.nextState Fsm.resolveStateArg Fsm.resolveEventArg at h
  dsimp only at h
  unfold FsmState.nextState at h
  split at h
  · cases h
  · split at h
    · cases h
    · cases h
    · rename_i t e' heq heq'
      cases hjc : jmGet fsm.heap c with
      | none =>
        rw [show derefHeap fsm.heap c = defaultFsmState from by
          unfold derefHeap; rw [hjc]; rfl] at heq
        cases heq
      | some d =>
        have hd : derefHeap fsm.heap c = d := by
          unfold derefHeap; rw [hjc]; rfl
        rw [hd] at heq
        have he' : e' = e := by
          cases heq'
          rfl
        exact htable c d t e.oid ns hjc heq (he' ▸ h)

theorem updateTokenToNextState_invs (fsm : Fsm) (tid : String) (ea : EventArg)
    (rsv : Option NdResolver) (h : Invs fsm) (htable : TableInv fsm)
    (hrsv : ∀ r, rsv = some r → ∀ a b c so, r a b c = some so →
      ∃ sid, jmGet fsm.states sid = some so) :
    Invs (Fsm.outFsm (Fsm.updateTokenToNextState fsm tid ea rsv)) := by
  unfold Fsm.updateTokenToNextState
  split
  · rename_i ef heq
    obtain ⟨e0, f0⟩ := ef
    have hfr := getTokenInstance_error_frame fsm tid true none e0 f0 heq
    exact invs_of_eq _ fsm hfr.1 hfr.2.2.1 hfr.2.2.2.2 h
  · rename_i tok fsm1 heq
    have hok := getTokenInstance_ok_spec fsm tid true none tok fsm1 heq
    have hinv1 : Invs fsm1 := by
      rcases hok.2.2.2.2 with ⟨ht, _⟩ | ⟨_, hini, ht⟩
      · exact invs_of_eq fsm1 fsm hok.1 hok.2.2.1 ht h
      · have hreg : ∃ sid, jmGet fsm.states sid = some tok :=
          h.2 (Fsm.regionOrDefault fsm none) tok hini
        constructor
        · intro t oid hget
          rw [ht] at hget
          rw [hok.1]
          exact tokenInv_update fsm.states fsm.tokenInstances tid tok h.1 hreg t oid hget
        · intro rr oid hget
          rw [hok.2.2.1] at hget
          rw [hok.1]
          exact h.2 rr oid hget
    have htable1 : TableInv fsm1 := by
      intro oid d t eo so h1 h2 h3
      rw [hok.1]
      rw [hok.2.2.2.1] at h1
      exact htable oid d t eo so h1 h2 h3
    split
    · exact invs_of_eq _ fsm1 rfl rfl rfl hinv1
    · rename_i ev hev
      split
      · rename_i ns hns
        have hreg_ns : ∃ sid, jmGet fsm1.states sid = some ns :=
          nextState_registered fsm1 tok ns ev htable1 hns
        split
        · cases rsv with
          | none => exact invs_of_eq _ fsm1 rfl rfl rfl hinv1
          | some r =>
            dsimp only
            split
            · exact invs_of_eq _ fsm1 rfl rfl rfl hinv1
            · rename_i ns' hns'
              have hreg' : ∃ sid, jmGet fsm1.states sid = some ns' := by
                rw [hok.1]
                exact hrsv r rfl tid tok ev ns' hns'
              have hinv2 : Invs (Fsm.emitTok fsm1
                  (TokAct.transitNonDeterministic tid tok ev.oid ns)) :=
                invs_of_eq _ fsm1 rfl rfl rfl hinv1
              exact updateTokenFinish_invs _ tid tok ev ns' hinv2 hreg'
        · exact updateTokenFinish_invs fsm1 tid tok ev ns hinv1 hreg_ns
      · exact invs_of_eq _ fsm1 rfl rfl rfl hinv1

/-- A state object is eligible and conflict-free for the bulk edge
`(e, n)`: it reports non-final, and its table either lacks an entry for `e`
or already maps `e` to `n`, and the edge is not a disallowed
self-transition. -/
def BatchCond (fsm : Fsm) (e : FsmEvent) (n : Nat) (oid : Nat) : Prop :=
  ∃ d t, jmGet fsm.heap oid = some d ∧ FsmState.isFinalState d = false ∧
    d.transitionTable = some t ∧
    (jmGet t e.oid = none ∨ jmGet t e.oid = some n) ∧
    (fsm.allowSelfTransition = true ∨
      FsmState.equals d (derefHeap fsm.heap n) = false)

/-- The state object's table maps `e` to `n`. -/
def BatchDone (fsm : Fsm) (e : FsmEvent) (n : Nat) (oid : Nat) : Prop :=
  ∃ d t, jmGet fsm.heap oid = some d ∧ d.transitionTable = some t ∧
    jmGet t e.oid = some n

theorem isFinalState_eq_false (d : FsmState) (h : FsmState.isFinalState d = false) :
    d.isFinalFlag = false ∧ ∃ t, d.transitionTable = some t := by
  unfold FsmState.isFinalState at h
  rw [Bool.or_eq_false_iff] at h
  refine ⟨h.1, ?_⟩
  rcases ht : d.transitionTable with - | t
  · rw [ht] at h
    cases h.2
  · exact ⟨t, rfl⟩

theorem addTransition_ok_fields (heap : JsMap Nat FsmState) (d d' : FsmState)
    (ev : Option FsmEvent) (ns : Option Nat) (out : Option OutputFn)
    (h : FsmState.addTransition heap d ev ns out = Except.ok d') :
    d'.stateId = d.stateId ∧ d'.stateName = d.stateName ∧
    d'.isFinalFlag = d.isFinalFlag := by
  unfold FsmState.addTransition at h
  split at h
  · cases h
  · split at h
    · cases h
    · split at h
      · cases h
      · split at h
        · cases h
        · split at h
          · split at h
            · cases h
              exact ⟨rfl, rfl, rfl⟩
            · cases h
          · cases h
            exact ⟨rfl, rfl, rfl⟩

theorem addStateTransition_allow (fsm : Fsm) (a : StateArg) (b : EventArg)
    (c : StateArg) :
    (Fsm.outFsm (Fsm.addStateTransition fsm a b c)).allowSelfTransition =
      fsm.allowSelfTransition := by
  unfold Fsm.addStateTransition
  split
  · split
    · rfl
    · split <;> rfl
  · rfl

theorem batchAddBody_allow (e : FsmEvent) (n : Nat) (acc : Fsm) (oid : Nat) :
    (Fsm.batchAddBody e n acc oid).allowSelfTransition = acc.allowSelfTransition := by
  unfold Fsm.batchAddBody
  split
  · rfl
  · exact addStateTransition_allow acc _ _ _

theorem addStateTransition_obj_ok_spec (fsm : Fsm) (oid : Nat) (e : FsmEvent)
    (n : Nat) (u : Unit) (f : Fsm)
    (h : Fsm.addStateTransition fsm (StateArg.obj oid) (EventArg.obj e)
      (StateArg.obj n) = Except.ok (u, f)) :
    ∃ d', FsmState.addTransition fsm.heap (derefHeap fsm.heap oid) (some e) (some n)
        none = Except.ok d' ∧
      f = { fsm with heap := jmSet fsm.heap oid d' } := by
  unfold Fsm.addStateTransition at h
  dsimp only [Fsm.resolveStateArg, Fsm.resolveEventArg] at h
  split at h
  · cases h
  · split at h
    · cases h
    · rename_i d' hok
      simp only [Except.ok.injEq, Prod.mk.injEq] at h
      exact ⟨d', hok, h.2.symm⟩

theorem batchAddBody_heap_ne (e : FsmEvent) (n : Nat) (acc : Fsm) (oid oid' : Nat)
    (h : oid' ≠ oid) :
    jmGet (Fsm.batchAddBody e n acc oid).heap oid' = jmGet acc.heap oid' := by
  unfold Fsm.batchAddBody
  split
  · rfl
  · cases hres : Fsm.addStateTransition acc (StateArg.obj oid) (EventArg.obj e)
      (StateArg.obj n) with
    | error ef =>
      obtain ⟨e0, f0⟩ := ef
      rw [show Fsm.outFsm (Except.error (e0, f0)) = f0 from rfl,
        addStateTransition_error_eq acc _ _ _ e0 f0 hres]
    | ok rf =>
      obtain ⟨u, f0⟩ := rf
      obtain ⟨d', -, hf⟩ := addStateTransition_obj_ok_spec acc oid e n u f0 hres
      rw [show Fsm.outFsm (Except.ok (u, f0)) = f0 from rfl, hf]
      exact jmGet_jmSet_ne acc.heap oid oid' d' h

theorem batchAddBody_heap_none (e : FsmEvent) (n : Nat) (acc : Fsm) (oid oid' : Nat)
    (h : jmGet acc.heap oid' = none) :
    jmGet (Fsm.batchAddBody e n acc oid).heap oid' = none := by
  by_cases hc : oid' = oid
  · subst hc
    unfold Fsm.batchAddBody
    rw [if_pos]
    · exact h
    · unfold derefHeap
      rw [h]
      rfl
  · rw [batchAddBody_heap_ne e n acc oid oid' hc]
    exact h

theorem batchAddBody_heap_fields (e : FsmEvent) (n : Nat) (acc : Fsm) (oid oid' : Nat)
    (d : FsmState) (h : jmGet acc.heap oid' = some d) :
    ∃ d', jmGet (Fsm.batchAddBody e n acc oid).heap oid' = some d' ∧
      d'.stateId = d.stateId ∧ d'.stateName = d.stateName ∧
      d'.isFinalFlag = d.isFinalFlag := by
  by_cases hc : oid' = oid
  · subst hc
    unfold Fsm.batchAddBody
    split
    · exact ⟨d, h, rfl, rfl, rfl⟩
    · cases hres : Fsm.addStateTransition acc (StateArg.obj oid') (EventArg.obj e)
        (StateArg.obj n) with
      | error ef =>
        obtain ⟨e0, f0⟩ := ef
        rw [show Fsm.outFsm (Except.error (e0, f0)) = f0 from rfl,
          addStateTransition_error_eq acc _ _ _ e0 f0 hres]
        exact ⟨d, h, rfl, rfl, rfl⟩
      | ok rf =>
        obtain ⟨u, f0⟩ := rf
        obtain ⟨d2, hok, hf⟩ := addStateTransition_obj_ok_spec acc oid' e n u f0 hres
        have hder : derefHeap acc.heap oid' = d := by
          unfold derefHeap
          rw [h]
          rfl
        rw [hder] at hok
        have hfields := addTransition_ok_fields acc.heap d d2 (some e) (some n) none hok
        rw [show Fsm.outFsm (Except.ok (u, f0)) = f0 from rfl, hf]
        exact ⟨d2, by dsimp only; rw [jmGet_jmSet_self], hfields.1, hfields.2.1,
          hfields.2.2⟩
  · exact ⟨d, by rw [batchAddBody_heap_ne e n acc oid oid' hc]; exact h, rfl, rfl, rfl⟩

theorem equals_congr_right (x a b : FsmState) (h1 : a.stateId = b.stateId)
    (h2 : a.stateName = b.stateName) :
    FsmState.equals x a = FsmState.equals x b := by
  unfold FsmState.equals
  rw [h1, h2]

theorem batchAddBody_cond_mono (e : FsmEvent) (n : Nat) (acc : Fsm) (oid oid' : Nat)
    (hne : oid' ≠ oid) (hc : BatchCond acc e n oid') :
    BatchCond (Fsm.batchAddBody e n acc oid) e n oid' := by
  obtain ⟨d, t, hd, hnf, ht, hget, hself⟩ := hc
  refine ⟨d, t, by rw [batchAddBody_heap_ne e n acc oid oid' hne]; exact hd,
    hnf, ht, hget, ?_⟩
  rcases hself with hallow | heqf
  · exact Or.inl (by rw [batchAddBody_allow]; exact hallow)
  · refine Or.inr ?_
    cases hn : jmGet acc.heap n with
    | none =>
      have : jmGet (Fsm.batchAddBody e n acc oid).heap n = none :=
        batchAddBody_heap_none e n acc oid n hn
      rw [show derefHeap (Fsm.batchAddBody e n acc oid).heap n = defaultFsmState from by
          unfold derefHeap; rw [this]; rfl,
        show derefHeap acc.heap n = defaultFsmState from by
          unfold derefHeap; rw [hn]; rfl] at *
      exact heqf
    | some dn =>
      obtain ⟨dn', hdn', hid, hnm, -⟩ := batchAddBody_heap_fields e n acc oid n dn hn
      have h1 : derefHeap (Fsm.batchAddBody e n acc oid).heap n = dn' := by
        unfold derefHeap
        rw [hdn']
        rfl
      have h2 : derefHeap acc.heap n = dn := by
        unfold derefHeap
        rw [hn]
        rfl
      rw [h1]
      rw [h2] at heqf
      rw [equals_congr_right d dn' dn hid hnm]
      exact heqf

theorem batchAddBody_achieves (e : FsmEvent) (n : Nat) (acc : Fsm) (oid : Nat)
    (hc : BatchCond acc e n oid) : BatchDone (Fsm.batchAddBody e n acc oid) e n oid := by
  obtain ⟨d, t, hd, hnf, ht, hget, hself⟩ := hc
  have hder : derefHeap acc.heap oid = d := by
    unfold derefHeap
    rw [hd]
    rfl
  have hff : d.isFinalFlag = false := (isFinalState_eq_false d hnf).1
  unfold Fsm.batchAddBody
  rw [hder, if_neg (by rw [hnf]; simp)]
  have hselfcheck :
      (!acc.allowSelfTransition &&
        FsmState.equals (derefHeap acc.heap oid) (derefHeap acc.heap n)) = false := by
    rcases hself with hallow | heqf
    · rw [hallow]
      rfl
    · rw [hder, heqf]
      simp
  unfold Fsm.outFsm Fsm.addStateTransition
  dsimp only [Fsm.resolveStateArg, Fsm.resolveEventArg]
  rw [if_neg (by rw [hselfcheck]; simp)]
  rw [hder]
  unfold FsmState.addTransition
  rw [ht]
  try dsimp only
  rw [if_neg (by rw [hff]; simp)]
  try dsimp only
  rcases hget with hnone | hsome
  · rw [hnone]
    try dsimp only
    exact ⟨_, jmSet t e.oid n, by rw [jmGet_jmSet_self], rfl, jmGet_jmSet_self t e.oid n⟩
  · rw [hsome]
    try dsimp only
    rw [if_pos (equals_refl _)]
    exact ⟨d, t, by rw [jmGet_jmSet_self], ht, hsome⟩

theorem batchAddBody_done_mono (e : FsmEvent) (n : Nat) (acc : Fsm) (oid oid' : Nat)
    (hne : oid' ≠ oid) (hd : BatchDone acc e n oid') :
    BatchDone (Fsm.batchAddBody e n acc oid) e n oid' := by
  obtain ⟨d, t, h1, h2, h3⟩ := hd
  exact ⟨d, t, by rw [batchAddBody_heap_ne e n acc oid oid' hne]; exact h1, h2, h3⟩

theorem foldl_batchAdd_done_frame (e : FsmEvent) (n : Nat) (l : List Nat) :
    ∀ (fsm : Fsm) (oid : Nat), oid ∉ l → BatchDone fsm e n oid →
      BatchDone (l.foldl (Fsm.batchAddBody e n) fsm) e n oid := by
  induction l with
  | nil => intro fsm oid _ hd; exact hd
  | cons hd tl ih =>
    intro fsm oid hnot hdone
    simp only [List.foldl_cons]
    have h1 : oid ≠ hd := fun hc => hnot (hc ▸ List.mem_cons_self hd tl)
    exact ih _ oid (fun hc => hnot (List.mem_cons_of_mem hd hc))
      (batchAddBody_done_mono e n fsm hd oid h1 hdone)

theorem foldl_batchAdd_done (e : FsmEvent) (n : Nat) (l : List Nat) :
    ∀ (fsm : Fsm) (oid : Nat), l.Nodup → oid ∈ l → BatchCond fsm e n oid →
      BatchDone (l.foldl (Fsm.batchAddBody e n) fsm) e n oid := by
  induction l with
  | nil => intro fsm oid _ hmem; cases hmem
  | cons a as ih =>
    intro fsm oid hnodup hmem hc
    simp only [List.foldl_cons]
    rcases List.mem_cons.mp hmem with rfl | hmem'
    · have hdone := batchAddBody_achieves e n fsm oid hc
      exact foldl_batchAdd_done_frame e n as _ oid (List.nodup_cons.mp hnodup).1 hdone
    · have hne : oid ≠ a := by
        rintro rfl
        exact (List.nodup_cons.mp hnodup).1 hmem'
      exact ih (Fsm.batchAddBody e n fsm a) oid (List.nodup_cons.mp hnodup).2 hmem'
        (batchAddBody_cond_mono e n fsm a oid hne hc)

/-- Witness for C9: all three parts at concrete inputs — the default flag on
a fresh engine, the rejected self edge on `Red` with the flag off, and the
successful self edge `Red --E--> Red` with the default flag, after which
`nextState(Red, E)` is `Red`. -/
theorem c9_witness :
    (Fsm.createNewFiniteStateMachine "m").allowSelfTransition = true ∧
    Fsm.addStateTransition (Fsm.setAllowSelfTransition exM3 false)
      (StateArg.byId 0) (EventArg.byId 0) (StateArg.byId 0) =
      Except.error (FsmErr.selfTransitionDisabled, Fsm.setAllowSelfTransition exM3 false) ∧
    isOkE (Fsm.addStateTransition exM3 (StateArg.obj 0) (EventArg.obj exE)
      (StateArg.obj 0)) = true ∧
    Fsm.nextState
      (Fsm.outFsm (Fsm.addStateTransition exM3 (StateArg.obj 0) (EventArg.obj exE)
        (StateArg.obj 0)))
      (StateArg.obj 0) (EventArg.obj exE) = some 0 := by
  refine ⟨c9_self_transition_policy.1 "m", ?_, ?_, ?_⟩
  · exact c9_self_transition_policy.2.1 (Fsm.setAllowSelfTransition exM3 false)
      (StateArg.byId 0) (StateArg.byId 0) (EventArg.byId 0) 0 0 exE
      (by decide) (by decide) (by decide) (by decide) (by decide)
  · exact (c9_self_transition_policy.2.2 exM3 0 exE (derefHeap exM3.heap 0) []
      (by decide) (by decide) (by decide) (by decide) (by decide)).1
  · exact (c9_self_transition_policy.2.2 exM3 0 exE (derefHeap exM3.heap 0) []
      (by decide) (by decide) (by decide) (by decide) (by decide)).2

/-- Claim C4 (confirmed).  For a token bound to a state whose table maps
event `e` to a non-deterministic target: advancing without a resolver
throws the resolver-missing error `invalidStateTable "ND"` (emitting the
corresponding error notification), which is distinct from the
`invalidStateChange` error, and leaves the token-instance mapping
unchanged; advancing with a resolver that returns a state moves the token
to exactly the resolver's state and returns it. -/
theorem c4_nondeterministic_advancement
    (fsm : Fsm) (tokenId : String) (c nOid : Nat) (d nd : FsmState)
    (t : JsMap Nat Nat) (e : FsmEvent)
    (htrim : trimIsEmpty tokenId = false)
    (htok : jmGet fsm.tokenInstances tokenId = some c)
    (hd : jmGet fsm.heap c = some d)
    (hfin : d.isFinalFlag = false)
    (htab : d.transitionTable = some t)
    (hget : jmGet t e.oid = some nOid)
    (hnd : jmGet fsm.heap nOid = some nd)
    (hdet : nd.isDeterministicFlag = false) :
    (Fsm.updateTokenToNextState fsm tokenId (EventArg.obj e) none =
       Except.error (FsmErr.invalidStateTable "ND",
         Fsm.emitTok fsm (TokAct.errNdStateTableNotFound tokenId c nOid)) ∧
     (Fsm.outFsm (Fsm.updateTokenToNextState fsm tokenId (EventArg.obj e) none)).tokenInstances =
       fsm.tokenInstances) ∧
    (∀ (resolver : NdResolver) (m : Nat), resolver tokenId c e = some m →
      isOkE (Fsm.updateTokenToNextState fsm tokenId (EventArg.obj e) (some resolver)) = true ∧
      okVal (Fsm.updateTokenToNextState fsm tokenId (EventArg.obj e) (some resolver)) = some m ∧
      jmGet (Fsm.outFsm (Fsm.updateTokenToNextState fsm tokenId (EventArg.obj e)
        (some resolver))).tokenInstances tokenId = some m) := by
  have hgti : Fsm.getTokenInstance fsm tokenId true none = Except.ok (c, fsm) := by
    unfold Fsm.getTokenInstance
    rw [htrim, htok]
    simp
  have hns : Fsm.nextState fsm (StateArg.obj c) (EventArg.obj e) = some nOid := by
    unfold Fsm.nextState Fsm.resolveStateArg Fsm.resolveEventArg
    unfold FsmState.nextState
    simp [derefHeap, hd, hfin, htab, hget]
  have hdet' : (derefHeap fsm.heap nOid).isDeterministic = false := by
    simp [derefHeap, hnd, FsmState.isDeterministic, hdet]
  constructor
  · unfold Fsm.updateTokenToNextState
    rw [hgti]
    simp only [Fsm.resolveEventArg]
    rw [hns]
    simp only [hdet', Bool.not_false, if_true]
    simp [Fsm.outFsm, Fsm.emitTok]
  · intro resolver m hres
    unfold Fsm.updateTokenToNextState
    rw [hgti]
    simp only [Fsm.resolveEventArg]
    rw [hns]
    simp only [hdet', Bool.not_false, if_true]
    rw [hres]
    have hfin := updateTokenFinish_spec
      (Fsm.emitTok fsm (TokAct.transitNonDeterministic tokenId c e.oid nOid))
      tokenId c e m
    refine ⟨hfin.1, hfin.2.1, ?_⟩
    rw [hfin.2.2.2.2.2.2]
    simp [Fsm.emitTok, jmGet_jmSet_self]

/-- For the C4 witness: `Red --E--> Green` through the engine, `Green`
marked non-deterministic through the caller-held alias, token `t` bound to
`Red`. -/
def exC4 : Fsm :=
  Fsm.outFsm (Fsm.createTokenInstance
    (Fsm.mutateState
      (Fsm.outFsm (Fsm.addStateTransition exM3 (StateArg.byId 0) (EventArg.byId 0)
        (StateArg.byId 1)))
      1 FsmState.markNonDeterministic)
    "t" none)

/-- Witness for C4: on `exC4`, advancing `t` on `E` without a resolver
throws the ND-resolver-missing error and keeps `t ↦ Red`; with a resolver
returning `Red` (object 0), the token moves to exactly `Red`, not the
tentative `Green`. -/
theorem c4_witness :
    (Fsm.outFsm (Fsm.updateTokenToNextState exC4 "t" (EventArg.obj exE) none)).tokenInstances =
      exC4.tokenInstances ∧
    errOf (Fsm.updateTokenToNextState exC4 "t" (EventArg.obj exE) none) =
      some (FsmErr.invalidStateTable "ND") ∧
    isOkE (Fsm.updateTokenToNextState exC4 "t" (EventArg.obj exE)
      (some (fun _ _ _ => some 0))) = true ∧
    okVal (Fsm.updateTokenToNextState exC4 "t" (EventArg.obj exE)
      (some (fun _ _ _ => some 0))) = some 0 ∧
    jmGet (Fsm.outFsm (Fsm.updateTokenToNextState exC4 "t" (EventArg.obj exE)
      (some (fun _ _ _ => some 0)))).tokenInstances "t" = some 0 := by
  have h := c4_nondeterministic_advancement exC4 "t" 0 1
    (derefHeap exC4.heap 0) (derefHeap exC4.heap 1) [(2, 1)] exE
    (by decide) (by decide) (by decide) (by decide) (by decide) (by decide)
    (by decide) (by decide)
  have hb := h.2 (fun _ _ _ => some 0) 0 rfl
  refine ⟨h.1.2, ?_, hb.1, hb.2.1, hb.2.2⟩
  rw [h.1.1]
  rfl

/-- Claim C8 (confirmed).  `addState`, `addFinalState` and `addEvent` assign
the current registry size as the id when none is supplied (so consecutive
auto-adds get 0, 1, 2, …); an already-registered id — supplied or
auto-assigned — raises the duplicate error and leaves all four registries
unchanged (never a silent overwrite); a fresh explicit id always succeeds
and registers the new object; and any batch of adds with pairwise-distinct
explicit ids on a fresh engine succeeds entirely. -/
theorem c8_registry_add_semantics :
    (∀ (fsm : Fsm) (nm : String),
      Fsm.addState fsm nm none = Fsm.addState fsm nm (some (jmSize fsm.states : Int)) ∧
      Fsm.addFinalState fsm nm none =
        Fsm.addFinalState fsm nm (some (jmSize fsm.states : Int)) ∧
      Fsm.addEvent fsm nm none = Fsm.addEvent fsm nm (some (jmSize fsm.events : Int))) ∧
    (∀ (fsm : Fsm) (nm : String) (r : Nat) (f : Fsm),
      Fsm.addState fsm nm none = Except.ok (r, f) →
      jmGet f.states (jmSize fsm.states : Int) = some r ∧
      jmSize f.states = jmSize fsm.states + 1) ∧
    (∀ (fsm : Fsm) (nm : String) (sid : Int), jmHas fsm.states sid = true →
      errOf (Fsm.addState fsm nm (some sid)) = some FsmErr.duplicateState ∧
      errOf (Fsm.addFinalState fsm nm (some sid)) = some FsmErr.duplicateState ∧
      (Fsm.outFsm (Fsm.addState fsm nm (some sid))).states = fsm.states ∧
      (Fsm.outFsm (Fsm.addFinalState fsm nm (some sid))).states = fsm.states) ∧
    (∀ (fsm : Fsm) (nm : String) (eid : Int), jmHas fsm.events eid = true →
      errOf (Fsm.addEvent fsm nm (some eid)) = some FsmErr.duplicateEvent ∧
      (Fsm.outFsm (Fsm.addEvent fsm nm (some eid))).events = fsm.events) ∧
    (∀ (fsm : Fsm) (nm : String) (sid : Int), jmHas fsm.states sid = false →
      isOkE (Fsm.addState fsm nm (some sid)) = true ∧
      isOkE (Fsm.addFinalState fsm nm (some sid)) = true ∧
      jmGet (Fsm.outFsm (Fsm.addState fsm nm (some sid))).states sid = some fsm.nextOid) ∧
    (∀ (fsm : Fsm) (nm : String) (eid : Int), jmHas fsm.events eid = false →
      isOkE (Fsm.addEvent fsm nm (some eid)) = true ∧
      jmGet (Fsm.outFsm (Fsm.addEvent fsm nm (some eid))).events eid =
        some { oid := fsm.nextOid, eventId := eid, eventName := nm }) ∧
    (∀ (nm : String) (l : List (String × Int)), (l.map Prod.snd).Nodup →
      isOkE (addStatesList (Fsm.createNewFiniteStateMachine nm) l) = true ∧
      isOkE (addEventsList (Fsm.createNewFiniteStateMachine nm) l) = true) := by
  refine ⟨fun fsm nm => ⟨addState_none_eq fsm nm, addFinalState_none_eq fsm nm,
    addEvent_none_eq fsm nm⟩, ?_, ?_, ?_, ?_, ?_, ?_⟩
  · intro fsm nm r f h
    rw [addState_none_eq] at h
    cases hhas : jmHas fsm.states (jmSize fsm.states : Int) with
    | true =>
      have hd := (addState_dup_spec fsm nm _ hhas).1
      rw [h] at hd
      simp [errOf] at hd
    | false =>
      have hs := addState_fresh_spec fsm nm _ hhas
      rw [h] at hs
      simp only [okVal, Fsm.outFsm] at hs
      obtain ⟨-, hval, hst, -, -⟩ := hs
      have hr : r = fsm.nextOid := by
        simpa using hval
      constructor
      · rw [hst, hr]
        exact jmGet_jmSet_self _ _ _
      · rw [hst]
        exact jmSize_jmSet_of_not_has _ _ _ hhas
  · intro fsm nm sid hhas
    exact ⟨(addState_dup_spec fsm nm sid hhas).1,
      (addFinalState_dup_spec fsm nm sid hhas).1,
      (addState_dup_spec fsm nm sid hhas).2.1,
      (addFinalState_dup_spec fsm nm sid hhas).2.1⟩
  · intro fsm nm eid hhas
    exact ⟨(addEvent_dup_spec fsm nm eid hhas).1, (addEvent_dup_spec fsm nm eid hhas).2.2.1⟩
  · intro fsm nm sid hhas
    refine ⟨(addState_fresh_spec fsm nm sid hhas).1,
      (addFinalState_fresh_spec fsm nm sid hhas).1, ?_⟩
    rw [(addState_fresh_spec fsm nm sid hhas).2.2.1]
    exact jmGet_jmSet_self _ _ _
  · intro fsm nm eid hhas
    refine ⟨(addEvent_fresh_spec fsm nm eid hhas).1, ?_⟩
    rw [(addEvent_fresh_spec fsm nm eid hhas).2.2.1]
    exact jmGet_jmSet_self _ _ _
  · intro nm l hnodup
    constructor
    · exact addStatesList_ok_of_fresh l (Fsm.createNewFiniteStateMachine nm)
        (fun p _ => rfl) hnodup
    · exact addEventsList_ok_of_fresh l (Fsm.createNewFiniteStateMachine nm)
        (fun p _ => rfl) hnodup

/-- Witness for C8: auto-id growth when adding `Green` to `exM1`, duplicate
rejections for state id 0 and event id 0 on `exM3` with registries
untouched, fresh explicit ids succeeding, and a distinct-id batch on a
fresh engine succeeding end to end. -/
theorem c8_witness :
    jmGet exM2.states 1 = some 1 ∧ jmSize exM2.states = 2 ∧
    errOf (Fsm.addState exM3 "Dup" (some 0)) = some FsmErr.duplicateState ∧
    (Fsm.outFsm (Fsm.addState exM3 "Dup" (some 0))).states = exM3.states ∧
    errOf (Fsm.addEvent exM3 "Dup" (some 0)) = some FsmErr.duplicateEvent ∧
    isOkE (Fsm.addState exM3 "Blue" (some 5)) = true ∧
    jmGet (Fsm.outFsm (Fsm.addState exM3 "Blue" (some 5))).states 5 = some 3 ∧
    isOkE (addStatesList (Fsm.createNewFiniteStateMachine "w")
      [("A", 3), ("B", 7), ("C", 0)]) = true := by
  have h1 := c8_registry_add_semantics.2.1 exM1 "Green" 1 exM2 rfl
  have h2 := c8_registry_add_semantics.2.2.1 exM3 "Dup" 0 (by decide)
  have h3 := c8_registry_add_semantics.2.2.2.1 exM3 "Dup" 0 (by decide)
  have h4 := c8_registry_add_semantics.2.2.2.2.1 exM3 "Blue" 5 (by decide)
  have h5 := c8_registry_add_semantics.2.2.2.2.2.2 "w" [("A", 3), ("B", 7), ("C", 0)]
    (by decide)
  exact ⟨h1.1, h1.2, h2.1, h2.2.2.1, h3.1, h4.1, h4.2.2, h5.1⟩

/-- Claim C6 (amended, proved).  On a fresh Engine (no initial state
recorded), the first State added via `addState` or `addFinalState` is
auto-promoted to default-region initial.  `setInitialState(B)` replaces the
default-region holder `A` and unmarks it; afterwards `A.isInitialState()`
returns `null` — a falsy value — and indeed `isInitialState()` never
returns the literal `false` for any state, so the spec's
`isInitialState() === false` does not hold literally. -/
theorem c6_initial_state_bootstrap_and_replacement :
    (∀ d : FsmState, FsmState.isInitialState d ≠ JsValue.vBool false) ∧
    (∀ (fsm : Fsm) (nm : String) (r : Nat) (f : Fsm),
      fsm.initialStates = [] →
      Fsm.addState fsm nm none = Except.ok (r, f) →
      jmGet f.initialStates fsm.name = some r) ∧
    (∀ (fsm : Fsm) (nm : String) (r : Nat) (f : Fsm),
      fsm.initialStates = [] →
      Fsm.addFinalState fsm nm none = Except.ok (r, f) →
      jmGet f.initialStates fsm.name = some r) ∧
    (∀ (fsm : Fsm) (A B : Nat),
      jmGet fsm.initialStates fsm.name = some A →
      Fsm.getStateByIdAndName fsm (derefHeap fsm.heap B).stateId
        (derefHeap fsm.heap B).stateName = some B →
      A ≠ B →
      (Fsm.setInitialState fsm B none).1 = true ∧
      jmGet ((Fsm.setInitialState fsm B none).2).initialStates fsm.name = some B ∧
      FsmState.isInitialState (derefHeap ((Fsm.setInitialState fsm B none).2).heap A) =
        JsValue.vNull) := by
  refine ⟨?_, ?_, ?_, ?_⟩
  · intro d
    unfold FsmState.isInitialState
    cases hr : d.initialStateRegionName with
    | none => simp
    | some r =>
      by_cases h0 : r.length = 0
      · simp [h0]
      · have : (0 : Nat) < r.length := Nat.pos_of_ne_zero h0
        simp [h0, this]
  · intro fsm nm r f hini h
    rw [addState_none_eq] at h
    cases hhas : jmHas fsm.states (jmSize fsm.states : Int) with
    | true =>
      have hd := (addState_dup_spec fsm nm _ hhas).1
      rw [h] at hd
      simp [errOf] at hd
    | false =>
      have hs := (addState_fresh_spec fsm nm _ hhas).2.1
      rw [h] at hs
      simp only [okVal, Option.some.injEq] at hs
      have hf := addState_fresh_initial fsm nm _ hhas hini
      rw [h] at hf
      simp only [Fsm.outFsm] at hf
      rw [← hs] at hf
      exact hf
  · intro fsm nm r f hini h
    rw [addFinalState_none_eq] at h
    cases hhas : jmHas fsm.states (jmSize fsm.states : Int) with
    | true =>
      have hd := (addFinalState_dup_spec fsm nm _ hhas).1
      rw [h] at hd
      simp [errOf] at hd
    | false =>
      have hs := (addFinalState_fresh_spec fsm nm _ hhas).2.1
      rw [h] at hs
      simp only [okVal, Option.some.injEq] at hs
      have hf := addFinalState_fresh_initial fsm nm _ hhas hini
      rw [h] at hf
      simp only [Fsm.outFsm] at hf
      rw [← hs] at hf
      exact hf
  · intro fsm A B hold hlook hAB
    have hr := setInitialState_replace fsm A B hold hlook hAB
    refine ⟨hr.1, hr.2.1, ?_⟩
    rw [hr.2.2]
    exact isInitialState_unmark _

/-- Witness for C6: `Red` added to the fresh engine `exM0` is auto-promoted
to initial of region `m`; a final state added to a fresh engine is likewise
promoted; and on `exM2`, `setInitialState(Green)` makes `Green` initial
while `Red` afterwards reports `null` from `isInitialState()`. -/
theorem c6_witness :
    jmGet exM1.initialStates "m" = some 0 ∧
    jmGet (Fsm.outFsm (Fsm.addFinalState exM0 "F" none)).initialStates "m" = some 0 ∧
    (Fsm.setInitialState exM2 1 none).1 = true ∧
    jmGet ((Fsm.setInitialState exM2 1 none).2).initialStates "m" = some 1 ∧
    FsmState.isInitialState (derefHeap ((Fsm.setInitialState exM2 1 none).2).heap 0) =
      JsValue.vNull := by
  have h1 := c6_initial_state_bootstrap_and_replacement.2.1 exM0 "Red" 0 exM1 rfl rfl
  have h2 := c6_initial_state_bootstrap_and_replacement.2.2.1 exM0 "F" 0
    (Fsm.outFsm (Fsm.addFinalState exM0 "F" none)) rfl rfl
  have h3 := c6_initial_state_bootstrap_and_replacement.2.2.2 exM2 0 1
    (by decide) (by decide) (by decide)
  exact ⟨h1, h2, h3.1, h3.2.1, h3.2.2⟩

/-- Claim C2 (amended, proved).  Every failing operation leaves the state
registry, the event registry and the initial-state mapping exactly as they
were; the token-instance mapping is also unchanged by every failing
operation except `updateTokenToNextState`, which resolves the token with
auto-creation before resolving the event and may therefore leave behind a
lazily created binding of the token id to the region's initial state
(a failing `setInitialState` — returning `false` — changes nothing at
all). -/
theorem c2_failed_ops_preserve_registries :
    (∀ (fsm : Fsm) (nm : String) (sid : Option Int) (e : FsmErr) (f : Fsm),
      Fsm.addState fsm nm sid = Except.error (e, f) →
      RegistriesEq f fsm ∧ f.tokenInstances = fsm.tokenInstances) ∧
    (∀ (fsm : Fsm) (nm : String) (sid : Option Int) (e : FsmErr) (f : Fsm),
      Fsm.addFinalState fsm nm sid = Except.error (e, f) →
      RegistriesEq f fsm ∧ f.tokenInstances = fsm.tokenInstances) ∧
    (∀ (fsm : Fsm) (nm : String) (eid : Option Int) (e : FsmErr) (f : Fsm),
      Fsm.addEvent fsm nm eid = Except.error (e, f) →
      RegistriesEq f fsm ∧ f.tokenInstances = fsm.tokenInstances) ∧
    (∀ (fsm : Fsm) (s : Nat) (r : Option String),
      (Fsm.setInitialState fsm s r).1 = false → (Fsm.setInitialState fsm s r).2 = fsm) ∧
    (∀ (fsm : Fsm) (a : StateArg) (b : EventArg) (c : StateArg) (e : FsmErr) (f : Fsm),
      Fsm.addStateTransition fsm a b c = Except.error (e, f) → f = fsm) ∧
    (∀ (fsm : Fsm) (b : EventArg) (c : StateArg) (e : FsmErr) (f : Fsm),
      Fsm.addStateTransitionForAllStates fsm b c = Except.error (e, f) → f = fsm) ∧
    (∀ (fsm : Fsm) (a : StateArg) (b : EventArg) (e : FsmErr) (f : Fsm),
      Fsm.removeStateTransition fsm a b = Except.error (e, f) → f = fsm) ∧
    (∀ (fsm : Fsm) (b : EventArg) (e : FsmErr) (f : Fsm),
      Fsm.removeAllStatesTransitionForEvent fsm b = Except.error (e, f) → f = fsm) ∧
    (∀ (fsm : Fsm) (tid : String) (rg : Option String) (e : FsmErr) (f : Fsm),
      Fsm.createTokenInstance fsm tid rg = Except.error (e, f) → f = fsm) ∧
    (∀ (fsm : Fsm) (tid : String) (ac : Bool) (rg : Option String) (e : FsmErr) (f : Fsm),
      Fsm.getTokenInstance fsm tid ac rg = Except.error (e, f) →
      RegistriesEq f fsm ∧ f.tokenInstances = fsm.tokenInstances) ∧
    (∀ (fsm : Fsm) (tid : String) (ea : EventArg) (rsv : Option NdResolver)
        (e : FsmErr) (f : Fsm),
      Fsm.updateTokenToNextState fsm tid ea rsv = Except.error (e, f) →
      RegistriesEq f fsm ∧
      (f.tokenInstances = fsm.tokenInstances ∨
        ∃ so, Fsm.getInitialState fsm none = some so ∧
          f.tokenInstances = jmSet fsm.tokenInstances tid so)) := by
  refine ⟨addState_error_frame, addFinalState_error_frame, addEvent_error_frame,
    setInitialState_false_eq, addStateTransition_error_eq,
    addStateTransitionForAllStates_error_eq, removeStateTransition_error_eq,
    removeAllStatesTransitionForEvent_error_eq, createTokenInstance_error_frame,
    ?_, ?_⟩
  · intro fsm tid ac rg e f h
    have hfr := getTokenInstance_error_frame fsm tid ac rg e f h
    exact ⟨⟨hfr.1, hfr.2.1, hfr.2.2.1⟩, hfr.2.2.2.2⟩
  · intro fsm tid ea rsv e f h
    have hs := updateTokenToNextState_error_spec fsm tid ea rsv e f h
    exact ⟨hs.1, hs.2.2⟩

/-- Witness for C2: a duplicate `addState` on `exM3` fails leaving all
registries unchanged, and the failing `updateTokenToNextState` of the C2
counterexample leaves the three structural registries unchanged (the
token-instance map is where it differs, as the counterexample shows). -/
theorem c2_witness :
    RegistriesEq (Fsm.outFsm (Fsm.addState exM3 "Dup" (some 0))) exM3 ∧
    (Fsm.outFsm (Fsm.addState exM3 "Dup" (some 0))).tokenInstances = exM3.tokenInstances ∧
    RegistriesEq (Fsm.outFsm (Fsm.updateTokenToNextState exM1 "t" (EventArg.byId 0) none))
      exM1 := by
  have h1 := c2_failed_ops_preserve_registries.1 exM3 "Dup" (some 0)
    FsmErr.duplicateState (Fsm.outFsm (Fsm.addState exM3 "Dup" (some 0))) rfl
  have h2 := c2_failed_ops_preserve_registries.2.2.2.2.2.2.2.2.2.2 exM1 "t"
    (EventArg.byId 0) none FsmErr.invalidOnEvent
    (Fsm.outFsm (Fsm.updateTokenToNextState exM1 "t" (EventArg.byId 0) none)) rfl
  exact ⟨h1.1, h1.2, h2.1⟩

/-- Claim C3 (amended, proved).  Every Engine operation other than
`clearAll` preserves the invariant that each bound token's state (and each
recorded initial state) is registered in the state registry — whether the
call returns or throws — provided the transition tables only store
registered targets (`TableInv`) and any caller-supplied resolver returns
only registered states.  `clearAll` is the exception shown by the
counterexample: it clears the registries but keeps the token bindings. -/
theorem c3_token_invariant_preservation :
    (∀ (fsm : Fsm) (nm : String) (sid : Option Int),
      Invs fsm → Invs (Fsm.outFsm (Fsm.addState fsm nm sid))) ∧
    (∀ (fsm : Fsm) (nm : String) (sid : Option Int),
      Invs fsm → Invs (Fsm.outFsm (Fsm.addFinalState fsm nm sid))) ∧
    (∀ (fsm : Fsm) (nm : String) (eid : Option Int),
      Invs fsm → Invs (Fsm.outFsm (Fsm.addEvent fsm nm eid))) ∧
    (∀ (fsm : Fsm) (s : Nat) (r : Option String),
      Invs fsm → Invs ((Fsm.setInitialState fsm s r).2)) ∧
    (∀ (fsm : Fsm) (a : StateArg) (b : EventArg) (c : StateArg),
      Invs fsm → Invs (Fsm.outFsm (Fsm.addStateTransition fsm a b c))) ∧
    (∀ (fsm : Fsm) (b : EventArg) (c : StateArg),
      Invs fsm → Invs (Fsm.outFsm (Fsm.addStateTransitionForAllStates fsm b c))) ∧
    (∀ (fsm : Fsm) (a : StateArg) (b : EventArg),
      Invs fsm → Invs (Fsm.outFsm (Fsm.removeStateTransition fsm a b))) ∧
    (∀ (fsm : Fsm) (b : EventArg),
      Invs fsm → Invs (Fsm.outFsm (Fsm.removeAllStatesTransitionForEvent fsm b))) ∧
    (∀ (fsm : Fsm) (tid : String) (rg : Option String),
      Invs fsm → Invs (Fsm.outFsm (Fsm.createTokenInstance fsm tid rg))) ∧
    (∀ (fsm : Fsm) (tid : String) (ac : Bool) (rg : Option String),
      Invs fsm → Invs (Fsm.outFsm (Fsm.getTokenInstance fsm tid ac rg))) ∧
    (∀ (fsm : Fsm) (tid : String) (ea : EventArg) (rsv : Option NdResolver),
      Invs fsm → TableInv fsm →
      (∀ r, rsv = some r → ∀ a b c so, r a b c = some so →
        ∃ sid, jmGet fsm.states sid = some so) →
      Invs (Fsm.outFsm (Fsm.updateTokenToNextState fsm tid ea rsv))) := by
  refine ⟨addState_invs, addFinalState_invs, addEvent_invs, setInitialState_invs,
    ?_, ?_, ?_, ?_, createTokenInstance_invs, getTokenInstance_invs,
    updateTokenToNextState_invs⟩
  · intro fsm a b c h
    have hm := addStateTransition_maps fsm a b c
    exact invs_of_eq _ fsm hm.1 hm.2.1 hm.2.2 h
  · intro fsm b c h
    have hm := addStateTransitionForAllStates_maps fsm b c
    exact invs_of_eq _ fsm hm.1 hm.2.1 hm.2.2 h
  · intro fsm a b h
    have hm := removeStateTransition_maps fsm a b
    exact invs_of_eq _ fsm hm.1 hm.2.1 hm.2.2 h
  · intro fsm b h
    have hm := removeAllStatesTransitionForEvent_maps fsm b
    exact invs_of_eq _ fsm hm.1 hm.2.1 hm.2.2 h

/-- Witness for C3: `exM1` satisfies both invariants, and creating token
`t` on it (which binds `t` to the registered initial state `Red`)
preserves them. -/
theorem c3_witness :
    Invs exM1 ∧ Invs (Fsm.outFsm (Fsm.createTokenInstance exM1 "t" none)) := by
  have hinv : Invs exM1 := by
    constructor
    · intro t oid hget
      simp [jmGet, exM1] at hget
    · intro r oid hget
      have he : exM1.initialStates = [("m", 0)] := by decide
      rw [he] at hget
      unfold jmGet at hget
      by_cases hr : r = "m"
      · rw [if_pos hr] at hget
        cases hget
        exact ⟨0, by decide⟩
      · rw [if_neg hr] at hget
        simp [jmGet] at hget
  exact ⟨hinv, c3_token_invariant_preservation.2.2.2.2.2.2.2.2.1 exM1 "t" none hinv⟩

/-- Claim C5 (amended, proved).  When the event and target arguments
resolve, `addStateTransitionForAllStates(E, N)` never raises — per-state
failures are swallowed — and every registered state that reports
`isFinalState() === false` (so: not constructed final AND a currently
nonempty transition table) and is conflict-free for the edge (`BatchCond`:
no existing different mapping for `E`, and not a disallowed
self-transition) ends up with its table mapping `E` to `N` (`BatchDone`).
States with empty tables report final and are skipped, as the C5
counterexample shows. -/
theorem c5_batch_add_for_all_states
    (fsm : Fsm) (ea : EventArg) (na : StateArg) (e : FsmEvent) (n : Nat)
    (he : Fsm.resolveEventArg fsm ea = some e)
    (hn : Fsm.resolveStateArg fsm na = some n)
    (hnodup : (jmValues fsm.states).Nodup) :
    isOkE (Fsm.addStateTransitionForAllStates fsm ea na) = true ∧
    ∀ oid, oid ∈ jmValues fsm.states → BatchCond fsm e n oid →
      BatchDone (Fsm.outFsm (Fsm.addStateTransitionForAllStates fsm ea na)) e n oid := by
  unfold Fsm.addStateTransitionForAllStates
  rw [he, hn]
  dsimp only
  refine ⟨rfl, ?_⟩
  intro oid hmem hc
  exact foldl_batchAdd_done e n (jmValues fsm.states) fsm oid hnodup hmem hc

/-- For the C5 witness: `exM3` plus a second event `B(1)` and a self edge
`Red --E--> Red`, so `Red`'s table is nonempty and `Red` reports
non-final. -/
def exC5 : Fsm :=
  Fsm.outFsm (Fsm.addStateTransition
    (Fsm.outFsm (Fsm.addEvent exM3 "B" none))
    (StateArg.byId 0) (EventArg.byId 0) (StateArg.byId 0))

/-- The registered event object `B(1)` of `exC5`. -/
def exB : FsmEvent := { oid := 3, eventId := 1, eventName := "B" }

/-- Witness for C5: on `exC5`, the batch add of `(B → Green)` succeeds and
`Red` — non-final with a nonempty table and no conflict on `B` — receives
the edge. -/
theorem c5_witness :
    isOkE (Fsm.addStateTransitionForAllStates exC5 (EventArg.byId 1)
      (StateArg.byName "Green")) = true ∧
    BatchDone (Fsm.outFsm (Fsm.addStateTransitionForAllStates exC5 (EventArg.byId 1)
      (StateArg.byName "Green"))) exB 1 0 := by
  have h := c5_batch_add_for_all_states exC5 (EventArg.byId 1) (StateArg.byName "Green")
    exB 1 (by decide) (by decide) (by decide)
  refine ⟨h.1, h.2 0 (by decide) ?_⟩
  refine ⟨derefHeap exC5.heap 0, [(2, 0)], by decide, by decide, by decide,
    Or.inl (by decide), Or.inl (by decide)⟩

end LibFsm
